import Mathlib

/-!
Verification of the state-tracking and alert-evaluation core of a
prediction-market notifier (Python sources under `src/`).

Conventions of the shallow embedding:
* Python `float` prices/volumes/thresholds are modelled as `ℚ`.
* `datetime` values are modelled as `ℚ` epoch seconds; `timedelta` arithmetic
  becomes plain subtraction of seconds.
* Python `dict`s (which preserve insertion order) are modelled as association
  lists `List (String × α)`; `set`s as `Finset String`; the bounded `deque`
  as a `List String` whose front is the oldest element.
* Fallible / optional values are `Option`.
* Alert evaluators return `Option` of a record holding the data that the
  human-readable message renders; the string templating itself (number
  formatting, line joining) is presentation and is not modelled.
-/

/-- `scanner.OutcomeSnapshot`: one tradable outcome observed at one point in
time (src/scanner.py lines 13-24). -/
structure OutcomeSnapshot where
  outcome_id : String
  market_id : String
  market_name : String
  market_url : String
  event_title : Option String
  outcome_name : String
  price : ℚ
  liquidity : ℚ
  volume : ℚ
  volume_24h : ℚ
  resolution_time : Option ℚ
deriving DecidableEq

/-- `state.OutcomeState` (src/state.py lines 14-20). -/
structure OutcomeState where
  outcome_id : String
  last_seen_price : Option ℚ := none
  last_seen_timestamp : Option ℚ := none
  last_alerted_timestamp : Option ℚ := none
  first_seen_timestamp : Option ℚ := none
deriving DecidableEq

/-!  ### Configuration records

Python reads configuration from nested dicts with `config.get(key, default)`;
each record below carries exactly the keys the corresponding module reads,
with the same defaults.  -/

/-- Keys read by `filters/probability.py`. -/
structure ProbabilityConfig where
  enabled : Bool := true
  min : ℚ := 0
  max : ℚ := 1
deriving DecidableEq

/-- Keys read by `filters/time_to_resolution.py`. -/
structure TimeToResolutionConfig where
  enabled : Bool := true
  min_days : ℚ := 0
  max_days : ℚ := 36500
deriving DecidableEq

/-- Keys read by `filters/volume.py`. -/
structure VolumeConfig where
  enabled : Bool := true
  min_usd : ℚ := 0
deriving DecidableEq

/-- Keys read by the liquidity filter (see `liquidity.passes` below). -/
structure LiquidityConfig where
  enabled : Bool := true
  min_usd : ℚ := 0
deriving DecidableEq

/-- Keys read by `alerts/new_market.py`. -/
structure NewMarketConfig where
  enabled : Bool := true
deriving DecidableEq

/-- Keys read by `alerts/price_spike.py`. -/
structure PriceSpikeConfig where
  enabled : Bool := true
  lookback_minutes : ℚ := 60
  percent_change : ℚ := 0
  absolute_change : Option ℚ := none
deriving DecidableEq

/-- Keys read by `alerts/range_entry.py`. -/
structure RangeEntryConfig where
  enabled : Bool := true
deriving DecidableEq

namespace probability

/-- `filters/probability.py::_normalize_bounds` (lines 6-11): bounds above 1
are reinterpreted as percentages and divided by 100. -/
def normalize_bounds (config : ProbabilityConfig) : ℚ × ℚ :=
  let minimum := config.min
  let maximum := config.max
  if 1 < minimum ∨ 1 < maximum then (minimum / 100, maximum / 100)
  else (minimum, maximum)

/-- `filters/probability.py::passes` (lines 14-18). -/
def passes (outcome : OutcomeSnapshot) (config : ProbabilityConfig) : Bool :=
  if ¬ config.enabled then true
  else
    let bounds := normalize_bounds config
    decide (bounds.1 ≤ outcome.price ∧ outcome.price ≤ bounds.2)

end probability

namespace time_to_resolution

/-- `filters/time_to_resolution.py::passes` (lines 8-18); `now` is the clock
reading `datetime.now(timezone.utc)` in epoch seconds. -/
def passes (outcome : OutcomeSnapshot) (config : TimeToResolutionConfig)
    (now : ℚ) : Bool :=
  if ¬ config.enabled then true
  else
    match outcome.resolution_time with
    | none => false
    | some rt =>
      let days := (rt - now) / 86400
      decide (config.min_days ≤ days ∧ days ≤ config.max_days)

end time_to_resolution

namespace volume_filter

/-- `filters/volume.py::passes` (lines 6-10). -/
def passes (outcome : OutcomeSnapshot) (config : VolumeConfig) : Bool :=
  if ¬ config.enabled then true
  else decide (config.min_usd ≤ outcome.volume)

end volume_filter

namespace liquidity

/-- Modelled from the spec: `src/filters/liquidity.py` is imported by
`src/main.py` but absent from the sources; the spec (§4.2) says the liquidity
filter "passes if outcome liquidity ≥ configured minimum", and a disabled
filter always passes. -/
def passes (outcome : OutcomeSnapshot) (config : LiquidityConfig) : Bool :=
  if ¬ config.enabled then true
  else decide (config.min_usd ≤ outcome.liquidity)

end liquidity

/-- Data rendered by a new-market message (`alerts/new_market.py` lines
13-26); string formatting elided. -/
structure NewMarketMsg where
  outcome_id : String
  market_name : String
  outcome_name : String
  price_pct : ℚ
deriving DecidableEq

namespace new_market

/-- `alerts/new_market.py::evaluate` (lines 7-26): fires iff the rule is
enabled and no prior state exists for the outcome. -/
def evaluate (outcome : OutcomeSnapshot) (existing_state : Option OutcomeState)
    (config : NewMarketConfig) : Option NewMarketMsg :=
  if ¬ config.enabled then none
  else
    match existing_state with
    | some _ => none
    | none =>
      some { outcome_id := outcome.outcome_id
             market_name := outcome.market_name
             outcome_name := outcome.outcome_name
             price_pct := outcome.price * 100 }

end new_market

/-- Data rendered by a price-spike message (`alerts/price_spike.py` lines
42-54); string formatting elided. -/
structure PriceSpikeMsg where
  outcome_id : String
  previous_price_pct : ℚ
  current_price_pct : ℚ
  percent_change : ℚ
  absolute_change : ℚ
deriving DecidableEq

namespace price_spike

/-- `alerts/price_spike.py::evaluate` (lines 9-54); `now` is the clock
reading.  Mirrors the Python control flow: disabled or missing prior
price/timestamp → `none`; stale prior observation
(`age_minutes > lookback_minutes`) → `none`; prior price exactly `0` →
`none`; otherwise the percent-change test runs only when the configured
`percent_change` threshold is truthy (nonzero) and the absolute-change test
only when `absolute_change` is configured (not `None`). -/
def evaluate (outcome : OutcomeSnapshot) (existing_state : Option OutcomeState)
    (config : PriceSpikeConfig) (now : ℚ) : Option PriceSpikeMsg :=
  if ¬ config.enabled then none
  else
    match existing_state with
    | none => none
    | some st =>
      match st.last_seen_price, st.last_seen_timestamp with
      | some previous_price, some last_ts =>
        let lookback_minutes := config.lookback_minutes
        let threshold_percent := config.percent_change
        let age_minutes := (now - last_ts) / 60
        if lookback_minutes < age_minutes then none
        else if previous_price = 0 then none
        else
          let percent_change := ((outcome.price - previous_price) / previous_price) * 100
          let absolute_change := outcome.price - previous_price
          let triggered : Bool :=
            (if threshold_percent ≠ 0
             then decide (threshold_percent ≤ |percent_change|)
             else false)
          let triggered : Bool :=
            match config.absolute_change with
            | some a => triggered || decide (a ≤ |absolute_change|)
            | none => triggered
          if triggered then
            some { outcome_id := outcome.outcome_id
                   previous_price_pct := previous_price * 100
                   current_price_pct := outcome.price * 100
                   percent_change := percent_change
                   absolute_change := absolute_change }
          else none
      | _, _ => none

end price_spike

/-- Data rendered by a range-entry message (`alerts/range_entry.py` lines
22-38); string formatting elided. -/
structure RangeEntryMsg where
  outcome_id : String
  previous_price_pct : ℚ
  current_price_pct : ℚ
  min_prob_pct : ℚ
  max_prob_pct : ℚ
deriving DecidableEq

namespace range_entry

/-- `alerts/range_entry.py::evaluate` (lines 8-39): fires iff the prior
last-seen price was strictly above the normalized upper bound and the new
price lies inside `[min, max]`. -/
def evaluate (outcome : OutcomeSnapshot) (existing_state : Option OutcomeState)
    (config : RangeEntryConfig) (probability_config : ProbabilityConfig) :
    Option RangeEntryMsg :=
  if ¬ config.enabled then none
  else
    match existing_state with
    | none => none
    | some st =>
      match st.last_seen_price with
      | none => none
      | some prev =>
        let bounds := probability.normalize_bounds probability_config
        if decide (bounds.2 < prev ∧ bounds.1 ≤ outcome.price ∧ outcome.price ≤ bounds.2) then
          some { outcome_id := outcome.outcome_id
                 previous_price_pct := prev * 100
                 current_price_pct := outcome.price * 100
                 min_prob_pct := bounds.1 * 100
                 max_prob_pct := bounds.2 * 100 }
        else none

end range_entry

/-!  ### Association-list dictionary primitives

Python `dict`s preserve insertion order; assignment to an existing key keeps
its position, assignment to a fresh key appends at the end.  -/

/-- `d[k]`-style lookup (`dict.get`). -/
def dict_get {α : Type} (l : List (String × α)) (k : String) : Option α :=
  (l.find? (fun p => p.1 == k)).map Prod.snd

/-- `d[k] = v`-style assignment: replace in place, or append a fresh key. -/
def dict_set {α : Type} (l : List (String × α)) (k : String) (v : α) :
    List (String × α) :=
  if (l.find? (fun p => p.1 == k)).isSome then
    l.map (fun p => if p.1 == k then (k, v) else p)
  else l ++ [(k, v)]

/-- `state.py` line 10: `_MAX_PROCESSED_TRADES`. -/
def MAX_PROCESSED_TRADES : Nat := 50000

/-- `state.py` line 11: `_MAX_WALLETS`. -/
def MAX_WALLETS : Nat := 100000

/-- Per-wallet statistics (`state.py` lines 122-126). -/
structure WalletStats where
  first_seen : ℚ
  markets_traded : Finset String
  total_volume : ℚ
deriving DecidableEq

/-- `state.StateStore`'s fields (`state.py` lines 24-35).  The front of
`processed_trades` is the oldest element of the bounded deque. -/
structure StateStore where
  path : String
  state : List (String × OutcomeState) := []
  processed_trades : List String := []
  processed_trades_set : Finset String := ∅
  wallet_stats : List (String × WalletStats) := []
  insider_alerted : Finset String := ∅
  volume_history : List (String × List (ℚ × ℚ)) := []

/-- The store a fresh `StateStore(path)` holds when no state file exists. -/
def empty_store (path : String) : StateStore := { path := path }

/-- Appending to a `collections.deque` with a `maxlen` bound: when full, the
leftmost (oldest) element is dropped; with `maxlen = 0` nothing is kept. -/
def dequeAppend (maxlen : Nat) (d : List String) (x : String) : List String :=
  if maxlen = 0 then d
  else if d.length = maxlen then d.tail ++ [x]
  else d ++ [x]

namespace StateStore

/-- `StateStore.get` (`state.py` lines 84-85). -/
def get (s : StateStore) (outcome_id : String) : Option OutcomeState :=
  dict_get s.state outcome_id

/-- `StateStore.upsert` (`state.py` lines 87-95); `now` is the clock
reading.  A fresh outcome gets `first_seen_timestamp := now`; in either case
`last_seen_price`/`last_seen_timestamp` are set. -/
def upsert (s : StateStore) (outcome_id : String) (price : ℚ) (now : ℚ) :
    StateStore :=
  let base : OutcomeState :=
    match get s outcome_id with
    | none => { outcome_id := outcome_id, first_seen_timestamp := some now }
    | some st => st
  let st := { base with last_seen_price := some price, last_seen_timestamp := some now }
  { s with state := dict_set s.state outcome_id st }

/-- `StateStore.mark_alerted` (`state.py` lines 97-101): no-op for an unknown
id. -/
def mark_alerted (s : StateStore) (outcome_id : String) (now : ℚ) : StateStore :=
  match get s outcome_id with
  | none => s
  | some st =>
    { s with state :=
        dict_set s.state outcome_id { st with last_alerted_timestamp := some now } }

/-- `StateStore.has_processed_trade` (`state.py` lines 103-104). -/
def has_processed_trade (s : StateStore) (trade_id : String) : Bool :=
  decide (trade_id ∈ s.processed_trades_set)

/-- `StateStore.add_processed_trade` (`state.py` lines 106-113).  `maxlen` is
the deque's bound (`_MAX_PROCESSED_TRADES` in the code); when the deque is
full, the evicted front element is also discarded from the membership set.
(The Python `deque[0]` access would raise only in the degenerate `maxlen = 0`
case, which the code never instantiates; `headI` stands in for it.) -/
def add_processed_trade (maxlen : Nat) (s : StateStore) (trade_id : String) :
    StateStore :=
  if trade_id ∈ s.processed_trades_set then s
  else
    let set1 :=
      if s.processed_trades.length = maxlen then
        s.processed_trades_set.erase s.processed_trades.headI
      else s.processed_trades_set
    { s with processed_trades := dequeAppend maxlen s.processed_trades trade_id,
             processed_trades_set := insert trade_id set1 }

/-- Sorting key used by `_evict_old_wallets`: compare wallet entries by their
`first_seen` timestamp. -/
def fsLE (p q : String × WalletStats) : Prop :=
  p.2.first_seen ≤ q.2.first_seen

instance : DecidableRel fsLE := fun p q =>
  inferInstanceAs (Decidable (p.2.first_seen ≤ q.2.first_seen))

instance : IsTotal (String × WalletStats) fsLE :=
  ⟨fun p q => le_total p.2.first_seen q.2.first_seen⟩

instance : IsTrans (String × WalletStats) fsLE :=
  ⟨fun _ _ _ h h' => le_trans h h'⟩

/-- `StateStore._evict_old_wallets` (`state.py` lines 142-152): when the
wallet count exceeds `maxW` (`_MAX_WALLETS` in the code), sort addresses by
`first_seen` (Python's `sorted` is stable; `List.insertionSort` with `≤` is
the same stable sort), delete the first `count - maxW` of them from the stats
dict, and discard each from the insider-alerted set. -/
def evict_old_wallets (maxW : Nat) (s : StateStore) : StateStore :=
  if s.wallet_stats.length ≤ maxW then s
  else
    let sorted_addrs := (s.wallet_stats.insertionSort fsLE).map Prod.fst
    let to_remove := s.wallet_stats.length - maxW
    let removed := sorted_addrs.take to_remove
    { s with
      wallet_stats := s.wallet_stats.filter (fun p => decide (p.1 ∉ removed)),
      insider_alerted := removed.foldl (fun acc a => acc.erase a) s.insider_alerted }

/-- The create-or-update part of `StateStore.update_wallet` (`state.py`
lines 118-129), before the eviction check. -/
def wallet_upsert (s : StateStore) (address token_id : String) (usd_value : ℚ)
    (now : ℚ) : StateStore :=
  let base : WalletStats :=
    match dict_get s.wallet_stats address with
    | none => { first_seen := now, markets_traded := ∅, total_volume := 0 }
    | some stats => stats
  let stats := { base with
    markets_traded := insert token_id base.markets_traded,
    total_volume := base.total_volume + usd_value }
  { s with wallet_stats := dict_set s.wallet_stats address stats }

/-- `StateStore.update_wallet` (`state.py` lines 115-131): no-op for an empty
address; otherwise create-or-update the wallet's stats, then run the
eviction check. -/
def update_wallet (maxW : Nat) (s : StateStore) (address token_id : String)
    (usd_value : ℚ) (now : ℚ) : StateStore :=
  if address = "" then s
  else evict_old_wallets maxW (wallet_upsert s address token_id usd_value now)

/-- `StateStore.has_insider_alerted` (`state.py` lines 136-137). -/
def has_insider_alerted (s : StateStore) (address : String) : Bool :=
  decide (address ∈ s.insider_alerted)

/-- `StateStore.record_volume` (`state.py` lines 154-157). -/
def record_volume (s : StateStore) (market_id : String) (volume : ℚ)
    (now : ℚ) : StateStore :=
  let history := (dict_get s.volume_history market_id).getD []
  { s with volume_history := dict_set s.volume_history market_id (history ++ [(now, volume)]) }

/-- The computation of `StateStore.get_volume_window` (`state.py` lines
159-167) on one market's history list: the raw difference between the latest
and the earliest sample whose timestamp is within `window_minutes` of `now`
— no clamping at zero. -/
def volume_window_calc (history : List (ℚ × ℚ)) (now window_minutes : ℚ) : ℚ :=
  if history.length < 2 then 0
  else
    let cutoff := now - window_minutes * 60
    let recent := history.filter (fun p => decide (cutoff ≤ p.1))
    match recent with
    | [] => 0
    | r :: rs => ((r :: rs).getLast (List.cons_ne_nil r rs)).2 - r.2

/-- `StateStore.get_volume_window` (`state.py` lines 159-167). -/
def get_volume_window (s : StateStore) (market_id : String)
    (now : ℚ) (window_minutes : ℚ) : ℚ :=
  volume_window_calc ((dict_get s.volume_history market_id).getD []) now window_minutes

/-- The computation of `StateStore.get_volume_baseline` (`state.py` lines
169-193) on one market's history list: `(last_volume - first_volume)` over
the samples with timestamps in `[now - baseline_days, now - window_minutes)`,
divided by the number of `window_minutes`-sized windows in that span; `0` on
every guard (fewer than 2 samples, non-positive span, non-positive volume
delta, non-positive window count). -/
def volume_baseline_calc (history : List (ℚ × ℚ))
    (now window_minutes baseline_days : ℚ) : ℚ :=
  if history.length < 2 then 0
  else
    let baseline_start := now - baseline_days * 86400
    let window_start := now - window_minutes * 60
    let baseline_points := history.filter
      (fun p => decide (baseline_start ≤ p.1 ∧ p.1 < window_start))
    match baseline_points with
    | [] => 0
    | [_] => 0
    | p :: q :: rest =>
      let plast := (q :: rest).getLast (List.cons_ne_nil q rest)
      let total_span := plast.1 - p.1
      if total_span ≤ 0 then 0
      else
        let total_volume_change := plast.2 - p.2
        if total_volume_change ≤ 0 then 0
        else
          let num_windows := total_span / (window_minutes * 60)
          if num_windows ≤ 0 then 0
          else total_volume_change / num_windows

/-- `StateStore.get_volume_baseline` (`state.py` lines 169-193). -/
def get_volume_baseline (s : StateStore) (market_id : String)
    (now window_minutes baseline_days : ℚ) : ℚ :=
  volume_baseline_calc ((dict_get s.volume_history market_id).getD [])
    now window_minutes baseline_days

end StateStore

/-!  ### Persistence (`StateStore.save` / `StateStore.load`)

`save` serializes to JSON with `json.dumps(payload, indent=2, sort_keys=True)`
and `load` re-parses with `json.loads`; for round-trip purposes JSON
writing/parsing is the identity on the payload data, except that
`sort_keys=True` re-orders the outcome map by key.  ISO-8601 datetime
formatting (`datetime.isoformat` / `datetime.fromisoformat`) is Python
standard-library code outside this repository; the embedding abstracts it as
a pair of functions `fmt : ℚ → String` / `prs : String → ℚ`. -/

/-- One serialized outcome entry (`state.py` lines 68-77 / 50-63). -/
structure OutcomePayload where
  last_seen_price : Option ℚ
  last_seen_timestamp : Option String
  last_alerted_timestamp : Option String
  first_seen_timestamp : Option String
deriving DecidableEq

/-- The object `save` writes (`state.py` lines 78-81). -/
structure SavedPayload where
  outcomes : List (String × OutcomePayload)
  processed_trades : List String
deriving DecidableEq

/-- The two on-disk shapes `load` accepts (`state.py` lines 42-48): the
wrapped form `{"outcomes": ..., "_processed_trades": ...}` or the legacy
flat outcome map. -/
inductive RawState where
  | flat (outcomes : List (String × OutcomePayload))
  | wrapped (outcomes : List (String × OutcomePayload)) (processed_trades : List String)
deriving DecidableEq

/-- Reading back the file `save` wrote yields the wrapped shape. -/
def SavedPayload.toRaw (p : SavedPayload) : RawState :=
  RawState.wrapped p.outcomes p.processed_trades

namespace StateStore

/-- `StateStore._format_datetime` (`state.py` lines 217-221): `None` maps to
`None` (a datetime object is always truthy), otherwise `isoformat`. -/
def format_datetime (fmt : ℚ → String) (value : Option ℚ) : Option String :=
  match value with
  | none => none
  | some t => some (fmt t)

/-- `StateStore._parse_datetime` (`state.py` lines 211-215): falsy input
(`None` or the empty string) maps to `None`, otherwise `fromisoformat`. -/
def parse_datetime (prs : String → ℚ) (value : Option String) : Option ℚ :=
  match value with
  | none => none
  | some str => if str = "" then none else some (prs str)

/-- Ordering of the serialized outcome map produced by
`json.dumps(..., sort_keys=True)`: entries sorted by key. -/
def keyLE (p q : String × OutcomePayload) : Prop := p.1 ≤ q.1

instance : DecidableRel keyLE := fun p q =>
  inferInstanceAs (Decidable (p.1 ≤ q.1))

/-- One outcome entry as `save` serializes it (`state.py` lines 68-77). -/
def outcome_payload (fmt : ℚ → String) (st : OutcomeState) : OutcomePayload :=
  { last_seen_price := st.last_seen_price
    last_seen_timestamp := format_datetime fmt st.last_seen_timestamp
    last_alerted_timestamp := format_datetime fmt st.last_alerted_timestamp
    first_seen_timestamp := format_datetime fmt st.first_seen_timestamp }

/-- One outcome entry as `load` parses it (`state.py` lines 50-63). -/
def payload_outcome (prs : String → ℚ) (p : String × OutcomePayload) : OutcomeState :=
  { outcome_id := p.1
    last_seen_price := p.2.last_seen_price
    last_seen_timestamp := parse_datetime prs p.2.last_seen_timestamp
    last_alerted_timestamp := parse_datetime prs p.2.last_alerted_timestamp
    first_seen_timestamp := parse_datetime prs p.2.first_seen_timestamp }

/-- The payload `StateStore.save` writes (`state.py` lines 65-82): every
outcome's four fields with datetimes formatted, keys sorted by
`sort_keys=True`, plus the processed-trade list. -/
def save_payload (fmt : ℚ → String) (s : StateStore) : SavedPayload :=
  let outcomes := s.state.map (fun p => (p.1, outcome_payload fmt p.2))
  { outcomes := outcomes.insertionSort keyLE,
    processed_trades := s.processed_trades }

/-- `StateStore.load` (`state.py` lines 37-63) applied to parsed file
contents: on the wrapped shape, first append every saved trade id to the
deque (plain `deque.append`, so the `maxlen` bound applies) and insert it
into the membership set; then store each outcome entry, parsing its
datetime fields. -/
def load (prs : String → ℚ) (maxlen : Nat) (s : StateStore) (raw : RawState) :
    StateStore :=
  let withTrades :=
    match raw with
    | RawState.flat _ => s
    | RawState.wrapped _ trades =>
      trades.foldl
        (fun acc tid =>
          { acc with processed_trades := dequeAppend maxlen acc.processed_trades tid,
                     processed_trades_set := insert tid acc.processed_trades_set })
        s
  let outcomes :=
    match raw with
    | RawState.flat outs => outs
    | RawState.wrapped outs _ => outs
  outcomes.foldl
    (fun acc p =>
      { acc with state := dict_set acc.state p.1 (payload_outcome prs p) })
    withTrades

/-- All datetime values stored in the outcome map (used to state the
round-trip hypothesis "timestamp precision permitting": the abstract
ISO-8601 parser must invert the formatter on exactly these values). -/
def state_timestamps (s : StateStore) : List ℚ :=
  s.state.flatMap (fun p =>
    p.2.last_seen_timestamp.toList ++ p.2.last_alerted_timestamp.toList ++
      p.2.first_seen_timestamp.toList)

end StateStore

/-!  ### The filesystem trace of `save`

`StateStore.save` ends with `self.path.write_text(json.dumps(payload, ...))`
(`state.py` line 82): a single direct write to the live state path.  The
trace below records the filesystem operations `save` performs, so that the
write-temp-then-rename question is a statement about the trace's shape. -/

/-- Filesystem operations relevant to persistence. -/
inductive FsOp where
  | write_file (path : String) (content : SavedPayload)
  | rename (src : String) (dst : String)
deriving DecidableEq

/-- The filesystem operations performed by `StateStore.save` (`state.py`
lines 65-82): exactly one `Path.write_text` on `self.path` — no temporary
file and no rename. -/
def save_ops (fmt : ℚ → String) (s : StateStore) : List FsOp :=
  [FsOp.write_file s.path (StateStore.save_payload fmt s)]

/-- A trace performs an atomic write-temp-then-rename (or equivalent) update
of `target`: all content is first written to some other path, and the only
operation touching `target` is a rename, which the OS applies atomically. -/
def atomic_write_pattern (ops : List FsOp) (target : String) : Prop :=
  ∃ tmp content, tmp ≠ target ∧
    ops = [FsOp.write_file tmp content, FsOp.rename tmp target]

/-!  ### Orchestrator (`main.py::run_once`) -/

/-- The `filters` section of the configuration (`main.py` lines 48-58). -/
structure FiltersConfig where
  probability : ProbabilityConfig := {}
  time_to_resolution : TimeToResolutionConfig := {}
  liquidity : LiquidityConfig := {}
  volume : VolumeConfig := {}
deriving DecidableEq

/-- The `alerts` section of the configuration read by `run_once` /
`build_alerts` (`main.py` lines 61-84, 102-105). -/
structure AlertsConfig where
  new_market : NewMarketConfig := {}
  price_spike : PriceSpikeConfig := {}
  range_entry : RangeEntryConfig := {}
deriving DecidableEq

/-- The configuration sections `run_once` reads. -/
structure BotConfig where
  filters : FiltersConfig := {}
  alerts : AlertsConfig := {}
deriving DecidableEq

/-- `main.py::passes_filters` (lines 48-58): conjunction of the four filter
predicates. -/
def passes_filters (outcome : OutcomeSnapshot) (filters_config : FiltersConfig)
    (now : ℚ) : Bool :=
  probability.passes outcome filters_config.probability &&
  time_to_resolution.passes outcome filters_config.time_to_resolution now &&
  liquidity.passes outcome filters_config.liquidity &&
  volume_filter.passes outcome filters_config.volume

/-- One message sent through the notifier during the per-outcome loop of
`run_once` (via `build_alerts`). -/
inductive AlertMsg where
  | new_market (m : NewMarketMsg)
  | price_spike (m : PriceSpikeMsg)
  | range_entry (m : RangeEntryMsg)
deriving DecidableEq

/-- `main.py::build_alerts` (lines 61-84): evaluate the three rules in fixed
order and yield the non-empty messages. -/
def build_alerts (outcome : OutcomeSnapshot) (existing_state : Option OutcomeState)
    (config : BotConfig) (now : ℚ) : List AlertMsg :=
  ((new_market.evaluate outcome existing_state config.alerts.new_market).map
      AlertMsg.new_market).toList ++
  ((price_spike.evaluate outcome existing_state config.alerts.price_spike now).map
      AlertMsg.price_spike).toList ++
  ((range_entry.evaluate outcome existing_state config.alerts.range_entry
      config.filters.probability).map AlertMsg.range_entry).toList

/-- `group_key = outcome.event_title or outcome.market_id` (`main.py` line
114): Python `or` falls through on a falsy (absent or empty) title. -/
def group_key (outcome : OutcomeSnapshot) : String :=
  match outcome.event_title with
  | none => outcome.market_id
  | some t => if t = "" then outcome.market_id else t

/-- `new_market_groups.setdefault(group_key, []).append(outcome)` (`main.py`
line 115). -/
def group_append (groups : List (String × List OutcomeSnapshot)) (key : String)
    (outcome : OutcomeSnapshot) : List (String × List OutcomeSnapshot) :=
  match dict_get groups key with
  | some existing => dict_set groups key (existing ++ [outcome])
  | none => dict_set groups key [outcome]

/-- The per-snapshot loop of `main.py::run_once` (lines 107-124), written as
explicit recursion over the snapshot list.  Each snapshot takes exactly one
of three branches: filtered out → `upsert` only; fresh outcome with
new-market alerting enabled → grouped for the batched notification, then
`upsert`; otherwise → evaluate the remaining rules, `mark_alerted` once per
sent message, then `upsert`. -/
def run_once_loop (config : BotConfig) (now : ℚ) :
    List OutcomeSnapshot → StateStore → List (String × List OutcomeSnapshot) →
    List AlertMsg → StateStore × List (String × List OutcomeSnapshot) × List AlertMsg
  | [], st, groups, sent => (st, groups, sent)
  | outcome :: rest, st, groups, sent =>
    let existing := st.get outcome.outcome_id
    if ¬ passes_filters outcome config.filters now then
      run_once_loop config now rest
        (st.upsert outcome.outcome_id outcome.price now) groups sent
    else if config.alerts.new_market.enabled ∧ existing = none then
      run_once_loop config now rest
        (st.upsert outcome.outcome_id outcome.price now)
        (group_append groups (group_key outcome) outcome) sent
    else
      let msgs := build_alerts outcome existing config now
      let st := msgs.foldl (fun s _ => s.mark_alerted outcome.outcome_id now) st
      run_once_loop config now rest
        (st.upsert outcome.outcome_id outcome.price now) groups (sent ++ msgs)

/-- The result of one scan cycle: the updated store, the grouped new-market
notifications (each group is one sent message listing its outcomes), and the
per-outcome messages sent inside the loop. -/
structure CycleResult where
  state : StateStore
  groups : List (String × List OutcomeSnapshot)
  sent : List AlertMsg

/-- `main.py::run_once` (lines 87-147) minus the network fetch, the
notifier transport and the final `state.save()` call: run the per-snapshot
loop, then flush each non-empty new-market group as one batched message and
`mark_alerted` each of its outcomes (lines 126-144). -/
def run_once (config : BotConfig) (now : ℚ) (snapshots : List OutcomeSnapshot)
    (st : StateStore) : CycleResult :=
  let r := run_once_loop config now snapshots st [] []
  let st2 := r.2.1.foldl
    (fun s kv => kv.2.foldl (fun s o => s.mark_alerted o.outcome_id now) s) r.1
  { state := st2, groups := r.2.1, sent := r.2.2 }

/-- The outcome identifiers listed across all grouped new-market
notifications. -/
def groups_ids (groups : List (String × List OutcomeSnapshot)) : List String :=
  groups.flatMap (fun kv => kv.2.map (fun o => o.outcome_id))

/-- The outcome identifiers carried by per-outcome `new_market` messages. -/
def sent_nm_ids (sent : List AlertMsg) : List String :=
  sent.filterMap (fun m =>
    match m with
    | AlertMsg.new_market nm => some nm.outcome_id
    | _ => none)

/-- The outcome identifiers for which a new-market alert fires in a cycle:
those listed in a batched new-market group message, plus any carried by a
per-outcome `new_market` message from `build_alerts`. -/
def new_market_fired (r : CycleResult) : List String :=
  groups_ids r.groups ++ sent_nm_ids r.sent

/-!  ## Claims -/

/-- C3: Price-Spike (enabled, with prior state holding a last-seen price and
timestamp) returns no message whenever the prior observation is older than
`lookback_minutes` or the prior price is exactly zero; otherwise it fires iff
`|((new-old)/old)*100| ≥ percent_threshold` (when a nonzero percent threshold
is configured) OR `|new-old| ≥ absolute_threshold` (when an absolute
threshold is configured) — either condition alone is sufficient. -/
theorem price_spike_evaluate_spec
    (outcome : OutcomeSnapshot) (st : OutcomeState) (config : PriceSpikeConfig)
    (now prev ts : ℚ)
    (hen : config.enabled = true)
    (hprev : st.last_seen_price = some prev)
    (hts : st.last_seen_timestamp = some ts) :
    (config.lookback_minutes < (now - ts) / 60 →
      price_spike.evaluate outcome (some st) config now = none) ∧
    ((now - ts) / 60 ≤ config.lookback_minutes → prev = 0 →
      price_spike.evaluate outcome (some st) config now = none) ∧
    ((now - ts) / 60 ≤ config.lookback_minutes → prev ≠ 0 →
      ((price_spike.evaluate outcome (some st) config now).isSome ↔
        ((config.percent_change ≠ 0 ∧
            config.percent_change ≤ |((outcome.price - prev) / prev) * 100|) ∨
          (∃ a, config.absolute_change = some a ∧ a ≤ |outcome.price - prev|)))) := by
  refine ⟨fun hstale => ?_, fun hfresh hzero => ?_, fun hfresh hnz => ?_⟩
  · simp [price_spike.evaluate, hen, hprev, hts, hstale]
  · simp [price_spike.evaluate, hen, hprev, hts, hzero, not_lt.mpr hfresh]
  · simp only [price_spike.evaluate, hen, hprev, hts, Bool.not_true,
      if_neg (not_lt.mpr hfresh), hnz, Bool.false_eq_true, if_false]
    cases habs : config.absolute_change with
    | none =>
      by_cases hp : config.percent_change = 0 <;>
        simp [habs, hp, decide_eq_true_iff]
    | some a =>
      by_cases hp : config.percent_change = 0 <;>
        simp [habs, hp, decide_eq_true_iff]

/-- Witness for `price_spike_evaluate_spec` at a concrete input: prior price
`0.5` seen 10 minutes ago, new price `0.6`, percent threshold `15`. -/
theorem price_spike_evaluate_spec_witness :
    (({ enabled := true, lookback_minutes := 60, percent_change := 15,
        absolute_change := none : PriceSpikeConfig }).lookback_minutes <
        ((600 : ℚ) - 0) / 60 →
      price_spike.evaluate
        { outcome_id := "o", market_id := "m", market_name := "M",
          market_url := "u", event_title := none, outcome_name := "Yes",
          price := 3/5, liquidity := 0, volume := 0, volume_24h := 0,
          resolution_time := none }
        (some { outcome_id := "o", last_seen_price := some (1/2),
                last_seen_timestamp := some 0 })
        { enabled := true, lookback_minutes := 60, percent_change := 15,
          absolute_change := none } 600 = none) ∧
    (((600 : ℚ) - 0) / 60 ≤ (60 : ℚ) → (1/2 : ℚ) = 0 →
      price_spike.evaluate
        { outcome_id := "o", market_id := "m", market_name := "M",
          market_url := "u", event_title := none, outcome_name := "Yes",
          price := 3/5, liquidity := 0, volume := 0, volume_24h := 0,
          resolution_time := none }
        (some { outcome_id := "o", last_seen_price := some (1/2),
                last_seen_timestamp := some 0 })
        { enabled := true, lookback_minutes := 60, percent_change := 15,
          absolute_change := none } 600 = none) ∧
    (((600 : ℚ) - 0) / 60 ≤ (60 : ℚ) → (1/2 : ℚ) ≠ 0 →
      ((price_spike.evaluate
        { outcome_id := "o", market_id := "m", market_name := "M",
          market_url := "u", event_title := none, outcome_name := "Yes",
          price := 3/5, liquidity := 0, volume := 0, volume_24h := 0,
          resolution_time := none }
        (some { outcome_id := "o", last_seen_price := some (1/2),
                last_seen_timestamp := some 0 })
        { enabled := true, lookback_minutes := 60, percent_change := 15,
          absolute_change := none } 600).isSome ↔
        (((15 : ℚ) ≠ 0 ∧ (15 : ℚ) ≤ |(((3/5 : ℚ) - 1/2) / (1/2)) * 100|) ∨
          (∃ a, (none : Option ℚ) = some a ∧ a ≤ |(3/5 : ℚ) - 1/2|)))) :=
  price_spike_evaluate_spec
    { outcome_id := "o", market_id := "m", market_name := "M",
      market_url := "u", event_title := none, outcome_name := "Yes",
      price := 3/5, liquidity := 0, volume := 0, volume_24h := 0,
      resolution_time := none }
    { outcome_id := "o", last_seen_price := some (1/2),
      last_seen_timestamp := some 0 }
    { enabled := true, lookback_minutes := 60, percent_change := 15,
      absolute_change := none }
    600 (1/2) 0 rfl rfl rfl

/-- C4: Range-Entry (enabled, prior last-seen price present, bounds
normalized as in the probability filter) fires iff the prior price was
strictly above the upper bound AND the new price lies inside `[min, max]`;
in particular it does not fire on re-entry from below the range or on
movement while already inside the range. -/
theorem range_entry_evaluate_spec
    (outcome : OutcomeSnapshot) (st : OutcomeState) (config : RangeEntryConfig)
    (probability_config : ProbabilityConfig) (prev : ℚ)
    (hen : config.enabled = true)
    (hprev : st.last_seen_price = some prev) :
    ((range_entry.evaluate outcome (some st) config probability_config).isSome ↔
      ((probability.normalize_bounds probability_config).2 < prev ∧
        (probability.normalize_bounds probability_config).1 ≤ outcome.price ∧
        outcome.price ≤ (probability.normalize_bounds probability_config).2)) := by
  simp [range_entry.evaluate, hen, hprev]

/-- Witness for `range_entry_evaluate_spec`, checking both fixtures from the
claim: with range `[0.70, 0.90]`, prior `0.97` → new `0.80` fires, while
prior `0.85` → new `0.80` does not (prior already inside the range). -/
theorem range_entry_evaluate_spec_witness :
    ((range_entry.evaluate
        { outcome_id := "o", market_id := "m", market_name := "M",
          market_url := "u", event_title := none, outcome_name := "Yes",
          price := 4/5, liquidity := 0, volume := 0, volume_24h := 0,
          resolution_time := none }
        (some { outcome_id := "o", last_seen_price := some (97/100) })
        { enabled := true } { enabled := true, min := 7/10, max := 9/10 }).isSome ↔
      (((probability.normalize_bounds { enabled := true, min := 7/10, max := 9/10 }).2 <
          (97/100 : ℚ)) ∧
        (probability.normalize_bounds { enabled := true, min := 7/10, max := 9/10 }).1 ≤ (4/5 : ℚ) ∧
        (4/5 : ℚ) ≤ (probability.normalize_bounds { enabled := true, min := 7/10, max := 9/10 }).2)) ∧
    (range_entry.evaluate
        { outcome_id := "o", market_id := "m", market_name := "M",
          market_url := "u", event_title := none, outcome_name := "Yes",
          price := 4/5, liquidity := 0, volume := 0, volume_24h := 0,
          resolution_time := none }
        (some { outcome_id := "o", last_seen_price := some (97/100) })
        { enabled := true } { enabled := true, min := 7/10, max := 9/10 }).isSome = true ∧
    (range_entry.evaluate
        { outcome_id := "o", market_id := "m", market_name := "M",
          market_url := "u", event_title := none, outcome_name := "Yes",
          price := 4/5, liquidity := 0, volume := 0, volume_24h := 0,
          resolution_time := none }
        (some { outcome_id := "o", last_seen_price := some (85/100) })
        { enabled := true } { enabled := true, min := 7/10, max := 9/10 }).isSome = false :=
  ⟨range_entry_evaluate_spec
      { outcome_id := "o", market_id := "m", market_name := "M",
        market_url := "u", event_title := none, outcome_name := "Yes",
        price := 4/5, liquidity := 0, volume := 0, volume_24h := 0,
        resolution_time := none }
      { outcome_id := "o", last_seen_price := some (97/100) }
      { enabled := true } { enabled := true, min := 7/10, max := 9/10 }
      (97/100) rfl rfl,
    by norm_num [range_entry.evaluate, probability.normalize_bounds],
    by norm_num [range_entry.evaluate, probability.normalize_bounds]⟩

/-- C7: the probability filter with bounds given as percentages behaves
identically to the filter with the same bounds given as fractions: if either
configured bound exceeds 1, both bounds are divided by 100 before comparison.
Stated generally (fractional bounds `m, M ≤ 1` whose percentage forms
`100m, 100M` trip the `> 1` normalization), together with the claim's
concrete instance `{min: 70, max: 90}` ≡ `{min: 0.70, max: 0.90}`. -/
theorem probability_passes_percent_law
    (outcome : OutcomeSnapshot) (e : Bool) (m M : ℚ)
    (hm : m ≤ 1) (hM : M ≤ 1) (htrip : 1 < 100 * m ∨ 1 < 100 * M) :
    probability.passes outcome { enabled := e, min := 100 * m, max := 100 * M } =
      probability.passes outcome { enabled := e, min := m, max := M } ∧
    probability.passes outcome { enabled := e, min := 70, max := 90 } =
      probability.passes outcome { enabled := e, min := 7/10, max := 9/10 } := by
  have hA : probability.normalize_bounds { enabled := e, min := 100 * m, max := 100 * M } = (m, M) := by
    unfold probability.normalize_bounds
    rw [if_pos htrip]
    simp only [Prod.mk.injEq]
    constructor <;> [skip; skip] <;>
      exact mul_div_cancel_left₀ _ (by norm_num)
  have hB : probability.normalize_bounds { enabled := e, min := m, max := M } = (m, M) := by
    unfold probability.normalize_bounds
    rw [if_neg (by push_neg; exact ⟨hm, hM⟩)]
  have hC : probability.normalize_bounds { enabled := e, min := 70, max := 90 } = (7/10, 9/10) := by
    unfold probability.normalize_bounds
    norm_num [Prod.ext_iff]
  have hD : probability.normalize_bounds { enabled := e, min := 7/10, max := 9/10 } = (7/10, 9/10) := by
    unfold probability.normalize_bounds
    norm_num [Prod.ext_iff]
  constructor
  · unfold probability.passes
    rw [hA, hB]
  · unfold probability.passes
    rw [hC, hD]

/-- Witness for `probability_passes_percent_law` at `m = 0.7`, `M = 0.9`,
price `0.8`. -/
theorem probability_passes_percent_law_witness :
    (probability.passes
        { outcome_id := "o", market_id := "m", market_name := "M",
          market_url := "u", event_title := none, outcome_name := "Yes",
          price := 4/5, liquidity := 0, volume := 0, volume_24h := 0,
          resolution_time := none }
        { enabled := true, min := 100 * (7/10), max := 100 * (9/10) } =
      probability.passes
        { outcome_id := "o", market_id := "m", market_name := "M",
          market_url := "u", event_title := none, outcome_name := "Yes",
          price := 4/5, liquidity := 0, volume := 0, volume_24h := 0,
          resolution_time := none }
        { enabled := true, min := 7/10, max := 9/10 }) ∧
    (probability.passes
        { outcome_id := "o", market_id := "m", market_name := "M",
          market_url := "u", event_title := none, outcome_name := "Yes",
          price := 4/5, liquidity := 0, volume := 0, volume_24h := 0,
          resolution_time := none }
        { enabled := true, min := 70, max := 90 } =
      probability.passes
        { outcome_id := "o", market_id := "m", market_name := "M",
          market_url := "u", event_title := none, outcome_name := "Yes",
          price := 4/5, liquidity := 0, volume := 0, volume_24h := 0,
          resolution_time := none }
        { enabled := true, min := 7/10, max := 9/10 }) :=
  probability_passes_percent_law
    { outcome_id := "o", market_id := "m", market_name := "M",
      market_url := "u", event_title := none, outcome_name := "Yes",
      price := 4/5, liquidity := 0, volume := 0, volume_24h := 0,
      resolution_time := none }
    true (7/10) (9/10) (by norm_num) (by norm_num) (by norm_num)

/-- Helper: every branch of the baseline computation returns a non-negative
value. -/
theorem volume_baseline_calc_nonneg (history : List (ℚ × ℚ)) (now wm bd : ℚ) :
    0 ≤ StateStore.volume_baseline_calc history now wm bd := by
  unfold StateStore.volume_baseline_calc
  dsimp only
  split
  · exact le_refl 0
  · split
    · exact le_refl 0
    · exact le_refl 0
    · split
      · exact le_refl 0
      · split
        · exact le_refl 0
        · split
          · exact le_refl 0
          · rename_i hspan hdv hnw
            exact le_of_lt (div_pos (lt_of_not_le hdv) (lt_of_not_le hnw))

/-- Helper: fewer than two samples in the baseline span yields `0`. -/
theorem volume_baseline_calc_span_small (history : List (ℚ × ℚ)) (now wm bd : ℚ)
    (h : (history.filter
        (fun p => decide (now - bd * 86400 ≤ p.1 ∧ p.1 < now - wm * 60))).length < 2) :
    StateStore.volume_baseline_calc history now wm bd = 0 := by
  unfold StateStore.volume_baseline_calc
  dsimp only
  split
  · rfl
  · split
    · rfl
    · rfl
    · rename_i heq
      rw [heq] at h
      simp at h
      omega

/-- Helper: with at least two baseline samples, the result is governed by the
span/delta guards and otherwise equals the per-window rate formula. -/
theorem volume_baseline_calc_branches (history : List (ℚ × ℚ)) (now wm bd : ℚ)
    (p q : ℚ × ℚ) (rest : List (ℚ × ℚ))
    (hpts : history.filter
        (fun p => decide (now - bd * 86400 ≤ p.1 ∧ p.1 < now - wm * 60)) = p :: q :: rest)
    (hwm : 0 < wm) :
    (((q :: rest).getLast (List.cons_ne_nil q rest)).1 - p.1 ≤ 0 →
      StateStore.volume_baseline_calc history now wm bd = 0) ∧
    (((q :: rest).getLast (List.cons_ne_nil q rest)).2 - p.2 ≤ 0 →
      StateStore.volume_baseline_calc history now wm bd = 0) ∧
    (0 < ((q :: rest).getLast (List.cons_ne_nil q rest)).1 - p.1 →
      0 < ((q :: rest).getLast (List.cons_ne_nil q rest)).2 - p.2 →
      StateStore.volume_baseline_calc history now wm bd =
        (((q :: rest).getLast (List.cons_ne_nil q rest)).2 - p.2) /
          ((((q :: rest).getLast (List.cons_ne_nil q rest)).1 - p.1) / (wm * 60))) := by
  have hlen : ¬ history.length < 2 := by
    have := List.length_filter_le
      (fun p => decide (now - bd * 86400 ≤ p.1 ∧ p.1 < now - wm * 60)) history
    rw [hpts] at this
    simp at this
    omega
  refine ⟨fun hspan => ?_, fun hdv => ?_, fun hspan hdv => ?_⟩
  · unfold StateStore.volume_baseline_calc
    dsimp only
    rw [if_neg hlen]
    simp only [hpts]
    rw [if_pos hspan]
  · unfold StateStore.volume_baseline_calc
    dsimp only
    rw [if_neg hlen]
    simp only [hpts]
    by_cases hspan : ((q :: rest).getLast (List.cons_ne_nil q rest)).1 - p.1 ≤ 0
    · rw [if_pos hspan]
    · rw [if_neg hspan, if_pos hdv]
  · unfold StateStore.volume_baseline_calc
    dsimp only
    rw [if_neg hlen]
    simp only [hpts]
    rw [if_neg (not_le.mpr hspan), if_neg (not_le.mpr hdv),
      if_neg (not_le.mpr (div_pos hspan (by linarith)))]

/-- C6: `get_volume_baseline` computes
`(last_volume - first_volume) / number_of_windows_in_span` over the samples
with timestamps in `[now - baseline_days, now - window_minutes)`, and returns
`0` whenever that span has fewer than 2 samples, non-positive elapsed time,
or non-positive volume delta; consequently its result is never negative,
even if the raw cumulative volume decreases between samples. -/
theorem get_volume_baseline_spec
    (s : StateStore) (market_id : String) (history : List (ℚ × ℚ))
    (now window_minutes baseline_days : ℚ)
    (hhist : (dict_get s.volume_history market_id).getD [] = history)
    (hwm : 0 < window_minutes) :
    (0 ≤ s.get_volume_baseline market_id now window_minutes baseline_days) ∧
    ((history.filter (fun p => decide (now - baseline_days * 86400 ≤ p.1 ∧
        p.1 < now - window_minutes * 60))).length < 2 →
      s.get_volume_baseline market_id now window_minutes baseline_days = 0) ∧
    (∀ (p q : ℚ × ℚ) (rest : List (ℚ × ℚ)),
      history.filter (fun p => decide (now - baseline_days * 86400 ≤ p.1 ∧
        p.1 < now - window_minutes * 60)) = p :: q :: rest →
      (((q :: rest).getLast (List.cons_ne_nil q rest)).1 - p.1 ≤ 0 →
        s.get_volume_baseline market_id now window_minutes baseline_days = 0) ∧
      (((q :: rest).getLast (List.cons_ne_nil q rest)).2 - p.2 ≤ 0 →
        s.get_volume_baseline market_id now window_minutes baseline_days = 0) ∧
      (0 < ((q :: rest).getLast (List.cons_ne_nil q rest)).1 - p.1 →
        0 < ((q :: rest).getLast (List.cons_ne_nil q rest)).2 - p.2 →
        s.get_volume_baseline market_id now window_minutes baseline_days =
          (((q :: rest).getLast (List.cons_ne_nil q rest)).2 - p.2) /
            ((((q :: rest).getLast (List.cons_ne_nil q rest)).1 - p.1) /
              (window_minutes * 60)))) := by
  have hcalc : s.get_volume_baseline market_id now window_minutes baseline_days =
      StateStore.volume_baseline_calc history now window_minutes baseline_days := by
    unfold StateStore.get_volume_baseline
    rw [hhist]
  rw [hcalc]
  exact ⟨volume_baseline_calc_nonneg history now window_minutes baseline_days,
    volume_baseline_calc_span_small history now window_minutes baseline_days,
    fun p q rest hpts =>
      volume_baseline_calc_branches history now window_minutes baseline_days
        p q rest hpts hwm⟩

/-- Witness for `get_volume_baseline_spec` on a store holding two baseline
samples for market `"m"` with rising volume. -/
theorem get_volume_baseline_spec_witness :
    0 ≤ StateStore.get_volume_baseline
      { path := "state.json",
        volume_history := [("m", [((100000 : ℚ), (10 : ℚ)), (200000, 130)])] }
      "m" 700000 30 7 :=
  (get_volume_baseline_spec
    { path := "state.json",
      volume_history := [("m", [((100000 : ℚ), (10 : ℚ)), (200000, 130)])] }
    "m" [((100000 : ℚ), (10 : ℚ)), (200000, 130)] 700000 30 7
    rfl (by norm_num)).1

/-- C10: `get_volume_window` returns the raw difference between the latest
and earliest in-window samples without clamping at zero: for any history
with at least 2 samples total where the latest sample inside the window has
a smaller cumulative volume than the earliest sample inside the window, the
returned value is strictly negative (unlike `get_volume_baseline`, which
guards against negative deltas — see `get_volume_baseline_spec`). -/
theorem get_volume_window_negative
    (s : StateStore) (market_id : String) (history : List (ℚ × ℚ))
    (now window_minutes : ℚ) (r : ℚ × ℚ) (rs : List (ℚ × ℚ))
    (hhist : (dict_get s.volume_history market_id).getD [] = history)
    (hlen : 2 ≤ history.length)
    (hrec : history.filter (fun p => decide (now - window_minutes * 60 ≤ p.1)) = r :: rs)
    (hneg : ((r :: rs).getLast (List.cons_ne_nil r rs)).2 < r.2) :
    s.get_volume_window market_id now window_minutes =
      ((r :: rs).getLast (List.cons_ne_nil r rs)).2 - r.2 ∧
    s.get_volume_window market_id now window_minutes < 0 := by
  have hcalc : s.get_volume_window market_id now window_minutes =
      StateStore.volume_window_calc history now window_minutes := by
    unfold StateStore.get_volume_window
    rw [hhist]
  have hval : StateStore.volume_window_calc history now window_minutes =
      ((r :: rs).getLast (List.cons_ne_nil r rs)).2 - r.2 := by
    unfold StateStore.volume_window_calc
    dsimp only
    rw [if_neg (not_lt.mpr hlen)]
    simp only [hrec]
  rw [hcalc, hval]
  exact ⟨rfl, by linarith⟩

/-- Witness for `get_volume_window_negative`: two in-window samples whose
cumulative volume decreases (`130` then `90`) yield `-40`. -/
theorem get_volume_window_negative_witness :
    StateStore.get_volume_window
      { path := "state.json",
        volume_history := [("m", [((699000 : ℚ), (130 : ℚ)), (699600, 90)])] }
      "m" 700000 30 < 0 :=
  (get_volume_window_negative
    { path := "state.json",
      volume_history := [("m", [((699000 : ℚ), (130 : ℚ)), (699600, 90)])] }
    "m" [((699000 : ℚ), (130 : ℚ)), (699600, 90)] 700000 30
    (699000, 130) [(699600, 90)]
    rfl (by norm_num) (by norm_num) (by norm_num)).2

/-- C1 (the code's side): the filesystem trace of `StateStore.save` is a
single `write_text` directly to the live state path — it is not of the
write-temp-then-rename shape, so a crash part-way through the write can
leave a truncated file at `self.path`, destroying the previously saved
state. -/
theorem save_ops_not_atomic (fmt : ℚ → String) (s : StateStore) :
    save_ops fmt s = [FsOp.write_file s.path (StateStore.save_payload fmt s)] ∧
    ¬ atomic_write_pattern (save_ops fmt s) s.path := by
  refine ⟨rfl, ?_⟩
  rintro ⟨tmp, content, hne, heq⟩
  simp [save_ops] at heq

/-- Witness for `save_ops_not_atomic` at a concrete store (hypothesis-free
modulo the function binders, instantiated at the identity formatter and a
one-outcome store). -/
theorem save_ops_not_atomic_witness :
    ¬ atomic_write_pattern
      (save_ops (fun _ => "1970-01-01T00:00:00+00:00")
        { path := "state.json",
          state := [("a", { outcome_id := "a", last_seen_price := some (1/2) })] })
      "state.json" :=
  (save_ops_not_atomic (fun _ => "1970-01-01T00:00:00+00:00")
    { path := "state.json",
      state := [("a", { outcome_id := "a", last_seen_price := some (1/2) })] }).2

/-- Helper: a bounded deque append never grows past the bound. -/
theorem dequeAppend_length_le (maxlen : Nat) (d : List String) (x : String)
    (h : d.length ≤ maxlen) : (dequeAppend maxlen d x).length ≤ maxlen := by
  unfold dequeAppend
  split
  · exact h
  · split
    · rename_i hzero hfull
      cases d with
      | nil => simp at hfull; omega
      | cons a t =>
        simp only [List.tail_cons, List.length_append, List.length_singleton]
        simp at hfull
        omega
    · rename_i hzero hnot
      simp only [List.length_append, List.length_singleton]
      have : d.length ≠ maxlen := hnot
      omega

/-- Helper: one `add_processed_trade` step never grows the deque past
`maxlen`. -/
theorem add_processed_trade_length_le (maxlen : Nat) (s : StateStore)
    (trade_id : String) (h : s.processed_trades.length ≤ maxlen) :
    (StateStore.add_processed_trade maxlen s trade_id).processed_trades.length ≤ maxlen := by
  unfold StateStore.add_processed_trade
  split
  · exact h
  · exact dequeAppend_length_le maxlen s.processed_trades trade_id h

/-- Helper: a second add of an already-present id is a no-op. -/
theorem add_processed_trade_idem (maxlen : Nat) (s : StateStore)
    (trade_id : String) (h : s.has_processed_trade trade_id = true) :
    StateStore.add_processed_trade maxlen s trade_id = s := by
  unfold StateStore.add_processed_trade
  rw [if_pos]
  exact of_decide_eq_true h

/-- Helper: folding distinct ids into an initially empty store keeps exactly
the last `maxlen` of them, in insertion order, with the membership set in
sync with the deque. -/
theorem add_all_processed_characterization (maxlen : Nat) (h1 : 1 ≤ maxlen)
    (path : String) :
    ∀ ids : List String, ids.Nodup →
      (List.foldl (StateStore.add_processed_trade maxlen) (empty_store path) ids).processed_trades =
        ids.drop (ids.length - maxlen) ∧
      (∀ x, x ∈ (List.foldl (StateStore.add_processed_trade maxlen) (empty_store path) ids).processed_trades_set ↔
        x ∈ (List.foldl (StateStore.add_processed_trade maxlen) (empty_store path) ids).processed_trades) := by
  intro ids
  induction ids using List.reverseRecOn with
  | nil =>
    intro _
    constructor
    · simp [empty_store, StateStore.add_processed_trade]
    · intro x
      simp [empty_store]
  | append_singleton l a ih =>
    intro hnodup
    have hl : l.Nodup := hnodup.sublist (List.sublist_append_left l [a])
    have ha : a ∉ l := by
      have := List.disjoint_of_nodup_append hnodup
      intro hmem
      exact this hmem (List.mem_singleton_self a)
    have hfold : List.foldl (StateStore.add_processed_trade maxlen) (empty_store path) (l ++ [a]) =
        StateStore.add_processed_trade maxlen
          (List.foldl (StateStore.add_processed_trade maxlen) (empty_store path) l) a := by
      rw [List.foldl_append]
      rfl
    rw [hfold]
    obtain ⟨hpt, hset⟩ := ih hl
    set s1 := List.foldl (StateStore.add_processed_trade maxlen) (empty_store path) l with hs1
    have hnotin : a ∉ s1.processed_trades_set := by
      intro hmem
      have := (hset a).mp hmem
      rw [hpt] at this
      exact ha (List.mem_of_mem_drop this)
    unfold StateStore.add_processed_trade
    rw [if_neg hnotin]
    dsimp only
    by_cases hcase : l.length < maxlen
    · have hk : l.length - maxlen = 0 := by omega
      have hpt' : s1.processed_trades = l := by rw [hpt, hk, List.drop_zero]
      have hlen : s1.processed_trades.length ≠ maxlen := by rw [hpt']; omega
      have hk1 : l.length + 1 - maxlen = 0 := by omega
      constructor
      · simp only [dequeAppend, if_neg (by omega : ¬ maxlen = 0), if_neg hlen]
        rw [hpt']
        simp [hk1]
      · intro x
        simp only [dequeAppend, if_neg (by omega : ¬ maxlen = 0), if_neg hlen]
        rw [hpt']
        simp only [Finset.mem_insert, List.mem_append, List.mem_singleton]
        rw [hset x, hpt']
        tauto
    · have hge : maxlen ≤ l.length := by omega
      have hdlen : (l.drop (l.length - maxlen)).length = maxlen := by
        rw [List.length_drop]
        omega
      cases hd : l.drop (l.length - maxlen) with
      | nil =>
        rw [hd] at hdlen
        simp at hdlen
        omega
      | cons h t =>
        have hlen : s1.processed_trades.length = maxlen := by
          rw [hpt]
          exact hdlen
        have hhead : s1.processed_trades.headI = h := by rw [hpt, hd]; rfl
        have htail : s1.processed_trades.tail = t := by rw [hpt, hd]; rfl
        have hdnodup : (h :: t).Nodup := by
          rw [← hd]
          exact hl.sublist (List.drop_sublist _ l)
        have hnotint : h ∉ t := (List.nodup_cons.mp hdnodup).1
        have hdrop1 : (l ++ [a]).drop (l.length + 1 - maxlen) = t ++ [a] := by
          have hk : l.length + 1 - maxlen = (l.length - maxlen) + 1 := by omega
          rw [hk, List.drop_append_of_le_length (by omega)]
          have hstep : l.drop (l.length - maxlen + 1) = t := by
            rw [← List.drop_drop, hd]
            rfl
          rw [hstep]
        constructor
        · simp only [dequeAppend, if_neg (by omega : ¬ maxlen = 0), if_pos hlen]
          rw [htail, List.length_append, List.length_singleton, hdrop1]
        · intro x
          simp only [dequeAppend, if_neg (by omega : ¬ maxlen = 0), if_pos hlen]
          rw [htail]
          simp only [Finset.mem_insert, Finset.mem_erase, List.mem_append,
            List.mem_singleton, hhead]
          rw [hset x, hpt, hd]
          constructor
          · rintro (rfl | ⟨hxh, hxm⟩)
            · tauto
            · rcases List.mem_cons.mp hxm with hxh2 | hxt
              · exact absurd hxh2 hxh
              · tauto
          · rintro (hxt | rfl)
            · right
              refine ⟨?_, List.mem_cons_of_mem h hxt⟩
              intro hxeq
              subst hxeq
              exact hnotint hxt
            · tauto

/-- C5: the processed-trade set never exceeds its configured capacity; after
`capacity + 1` insertions of distinct ids into an initially empty store, the
very first inserted id is no longer reported as processed (FIFO eviction by
insertion order); and `add_processed_trade` is idempotent: a second add of an
already-present id leaves the store unchanged and evicts nothing. -/
theorem processed_trades_fifo_spec (maxlen : Nat) (ids : List String)
    (path : String) (h1 : 1 ≤ maxlen) (h2 : ids.Nodup)
    (h3 : ids.length = maxlen + 1) :
    (∀ (s : StateStore) (id : String), s.processed_trades.length ≤ maxlen →
      (StateStore.add_processed_trade maxlen s id).processed_trades.length ≤ maxlen) ∧
    (∀ (x : String) (tl : List String), ids = x :: tl →
      (List.foldl (StateStore.add_processed_trade maxlen) (empty_store path) ids).has_processed_trade x
        = false) ∧
    (∀ (s : StateStore) (id : String), s.has_processed_trade id = true →
      StateStore.add_processed_trade maxlen s id = s) := by
  refine ⟨add_processed_trade_length_le maxlen, ?_, add_processed_trade_idem maxlen⟩
  intro x tl hids
  obtain ⟨hpt, hset⟩ := add_all_processed_characterization maxlen h1 path ids h2
  have hdrop : ids.drop (ids.length - maxlen) = tl := by
    rw [h3, Nat.add_sub_cancel_left, hids]
    rfl
  have hx_tl : x ∉ tl := by
    rw [hids] at h2
    exact (List.nodup_cons.mp h2).1
  have hxnot : x ∉ (List.foldl (StateStore.add_processed_trade maxlen) (empty_store path) ids).processed_trades_set := by
    intro hmem
    have := (hset x).mp hmem
    rw [hpt, hdrop] at this
    exact hx_tl this
  unfold StateStore.has_processed_trade
  exact decide_eq_false hxnot

/-- Witness for `processed_trades_fifo_spec`: capacity 2, inserting
`"a", "b", "c"`. -/
theorem processed_trades_fifo_spec_witness :
    (List.foldl (StateStore.add_processed_trade 2) (empty_store "p")
      ["a", "b", "c"]).has_processed_trade "a" = false :=
  (processed_trades_fifo_spec 2 ["a", "b", "c"] "p" (by norm_num) (by decide)
    rfl).2.1 "a" ["b", "c"] rfl

/-- Helper: `orderedInsert` by `first_seen` interacts with filtering on an
exact `first_seen` value: the inserted element lands in front of the
equal-key elements already present (this is the stability of the sort). -/
theorem filter_orderedInsert_first_seen (t : ℚ) (a : String × WalletStats) :
    ∀ l : List (String × WalletStats),
      ((l.orderedInsert StateStore.fsLE a).filter
          (fun p => decide (p.2.first_seen = t))) =
        if a.2.first_seen = t
        then a :: l.filter (fun p => decide (p.2.first_seen = t))
        else l.filter (fun p => decide (p.2.first_seen = t))
  | [] => by
    by_cases hPa : a.2.first_seen = t <;>
      simp [List.orderedInsert, List.filter, hPa]
  | b :: l => by
    rw [List.orderedInsert]
    by_cases hab : StateStore.fsLE a b
    · rw [if_pos hab]
      by_cases hPa : a.2.first_seen = t <;>
        simp [List.filter_cons, hPa]
    · rw [if_neg hab]
      have hba : b.2.first_seen < a.2.first_seen := by
        unfold StateStore.fsLE at hab
        exact lt_of_not_le hab
      by_cases hPa : a.2.first_seen = t
      · have hPb : ¬ b.2.first_seen = t := by
          intro h
          rw [hPa, h] at hba
          exact lt_irrefl t hba
        rw [List.filter_cons, filter_orderedInsert_first_seen t a l]
        simp [hPa, hPb]
      · rw [List.filter_cons, filter_orderedInsert_first_seen t a l]
        by_cases hPb : b.2.first_seen = t <;> simp [hPa, hPb]

/-- Helper: the insertion sort by `first_seen` is stable — for every exact
timestamp value, the sorted list's equal-key elements appear in the same
order as in the input. -/
theorem filter_insertionSort_first_seen (t : ℚ) :
    ∀ l : List (String × WalletStats),
      ((l.insertionSort StateStore.fsLE).filter
          (fun p => decide (p.2.first_seen = t))) =
        l.filter (fun p => decide (p.2.first_seen = t))
  | [] => rfl
  | b :: l => by
    rw [List.insertionSort, filter_orderedInsert_first_seen t b
      (l.insertionSort StateStore.fsLE), filter_insertionSort_first_seen t l,
      List.filter_cons]
    by_cases hPb : b.2.first_seen = t <;> simp [hPb]

/-- Helper: folding `Finset.erase` never re-adds an element. -/
theorem foldl_erase_not_mem_of_not_mem (x : String) :
    ∀ (l : List String) (s : Finset String), x ∉ s →
      x ∉ l.foldl (fun acc a => acc.erase a) s
  | [], _, h => h
  | a :: l, s, h => by
    rw [List.foldl_cons]
    exact foldl_erase_not_mem_of_not_mem x l (s.erase a)
      (fun hmem => h (Finset.mem_of_mem_erase hmem))

/-- Helper: folding `Finset.erase` over a list removes every listed
element. -/
theorem foldl_erase_not_mem_of_mem (x : String) :
    ∀ (l : List String) (s : Finset String), x ∈ l →
      x ∉ l.foldl (fun acc a => acc.erase a) s
  | a :: l, s, hmem => by
    rw [List.foldl_cons]
    rcases List.mem_cons.mp hmem with hxa | hxl
    · subst hxa
      exact foldl_erase_not_mem_of_not_mem x l (s.erase x)
        (Finset.not_mem_erase x s)
    · exact foldl_erase_not_mem_of_mem x l (s.erase a) hxl

/-- C8: whenever the wallet count exceeds the configured ceiling after an
`update_wallet` call, exactly the wallets with the oldest `first_seen`
timestamps are evicted (oldest first, ties broken stably by first-seen
order) until the count equals the ceiling, and the insider-alert-suppression
marker of every evicted wallet is cleared, so re-adding an evicted wallet
later can trigger an insider alert again.  The conjuncts: the surviving
entries are the input minus the removed addresses; the count drops to
exactly `maxW`; every evicted entry's `first_seen` is `≤` every survivor's;
every evicted address's insider marker is cleared; the sort used to pick
victims is stable on equal `first_seen` values; and `update_wallet` (for a
non-empty address) is exactly create-or-update followed by this eviction. -/
theorem wallet_eviction_spec (maxW : Nat) (s : StateStore)
    (hkeys : (s.wallet_stats.map Prod.fst).Nodup)
    (hover : maxW < s.wallet_stats.length) :
    ((StateStore.evict_old_wallets maxW s).wallet_stats =
        s.wallet_stats.filter (fun p => decide (p.1 ∉
          ((s.wallet_stats.insertionSort StateStore.fsLE).map Prod.fst).take
            (s.wallet_stats.length - maxW)))) ∧
    ((StateStore.evict_old_wallets maxW s).wallet_stats.length = maxW) ∧
    (∀ p ∈ (s.wallet_stats.insertionSort StateStore.fsLE).take
        (s.wallet_stats.length - maxW),
      ∀ q ∈ (StateStore.evict_old_wallets maxW s).wallet_stats,
        p.2.first_seen ≤ q.2.first_seen) ∧
    (∀ a ∈ ((s.wallet_stats.insertionSort StateStore.fsLE).map Prod.fst).take
        (s.wallet_stats.length - maxW),
      (StateStore.evict_old_wallets maxW s).has_insider_alerted a = false) ∧
    (∀ t : ℚ,
      (s.wallet_stats.insertionSort StateStore.fsLE).filter
          (fun p => decide (p.2.first_seen = t)) =
        s.wallet_stats.filter (fun p => decide (p.2.first_seen = t))) ∧
    (∀ (s' : StateStore) (addr tok : String) (v now : ℚ), addr ≠ "" →
      StateStore.update_wallet maxW s' addr tok v now =
        StateStore.evict_old_wallets maxW
          (StateStore.wallet_upsert s' addr tok v now)) := by
  set sorted := s.wallet_stats.insertionSort StateStore.fsLE with hsorted
  set n := s.wallet_stats.length - maxW with hn
  set removed := (sorted.map Prod.fst).take n with hremoved
  have hperm : List.Perm sorted s.wallet_stats := List.perm_insertionSort _ _
  have hkeys_sorted : (sorted.map Prod.fst).Nodup :=
    ((hperm.map Prod.fst).nodup_iff).mpr hkeys
  have hres : (StateStore.evict_old_wallets maxW s).wallet_stats =
      s.wallet_stats.filter (fun p => decide (p.1 ∉ removed)) := by
    unfold StateStore.evict_old_wallets
    rw [if_neg (not_le.mpr hover)]
  have hins : (StateStore.evict_old_wallets maxW s).insider_alerted =
      removed.foldl (fun acc a => acc.erase a) s.insider_alerted := by
    unfold StateStore.evict_old_wallets
    rw [if_neg (not_le.mpr hover)]
  have htake_drop : sorted.take n ++ sorted.drop n = sorted :=
    List.take_append_drop n sorted
  have hkeys_td : ((sorted.take n).map Prod.fst).Disjoint
      ((sorted.drop n).map Prod.fst) := by
    have hnd : ((sorted.take n ++ sorted.drop n).map Prod.fst).Nodup := by
      rw [htake_drop]
      exact hkeys_sorted
    rw [List.map_append] at hnd
    exact (List.nodup_append.mp hnd).2.2
  have hmem_take_removed : ∀ p ∈ sorted.take n, p.1 ∈ removed := by
    intro p hp
    rw [hremoved, ← List.map_take]
    exact List.mem_map_of_mem Prod.fst hp
  have hmem_drop_not : ∀ q ∈ sorted.drop n, q.1 ∉ removed := by
    intro q hq hmem
    rw [hremoved, ← List.map_take] at hmem
    exact hkeys_td hmem (List.mem_map_of_mem Prod.fst hq)
  have hfilter_take : (sorted.take n).filter (fun p => decide (p.1 ∉ removed)) = [] := by
    rw [List.filter_eq_nil_iff]
    intro p hp
    simp only [decide_eq_true_eq, not_not]
    exact hmem_take_removed p hp
  have hfilter_drop : (sorted.drop n).filter (fun p => decide (p.1 ∉ removed)) =
      sorted.drop n := by
    rw [List.filter_eq_self]
    intro q hq
    simp [hmem_drop_not q hq]
  have hfsorted : sorted.filter (fun p => decide (p.1 ∉ removed)) = sorted.drop n := by
    conv_lhs => rw [← htake_drop]
    rw [List.filter_append, hfilter_take, hfilter_drop, List.nil_append]
  have hlen : (s.wallet_stats.filter (fun p => decide (p.1 ∉ removed))).length = maxW := by
    have hpf : List.Perm (s.wallet_stats.filter (fun p => decide (p.1 ∉ removed)))
        (sorted.filter (fun p => decide (p.1 ∉ removed))) :=
      (hperm.filter _).symm
    rw [hpf.length_eq, hfsorted, List.length_drop, hperm.length_eq]
    omega
  have hresmem : ∀ q ∈ s.wallet_stats.filter (fun p => decide (p.1 ∉ removed)),
      q ∈ sorted.drop n := by
    intro q hq
    rw [List.mem_filter] at hq
    obtain ⟨hqs, hqp⟩ := hq
    have hq_sorted : q ∈ sorted := hperm.mem_iff.mpr hqs
    rw [← htake_drop] at hq_sorted
    rcases List.mem_append.mp hq_sorted with htk | hdp
    · exfalso
      exact (of_decide_eq_true hqp) (hmem_take_removed q htk)
    · exact hdp
  have hsorted_pw : List.Pairwise StateStore.fsLE sorted :=
    List.sorted_insertionSort _ _
  have hcross : ∀ p ∈ sorted.take n, ∀ q ∈ sorted.drop n, StateStore.fsLE p q := by
    rw [← htake_drop] at hsorted_pw
    exact fun p hp q hq => (List.pairwise_append.mp hsorted_pw).2.2 p hp q hq
  refine ⟨hres, ?_, ?_, ?_, fun t => filter_insertionSort_first_seen t s.wallet_stats, ?_⟩
  · rw [hres]
    exact hlen
  · intro p hp q hq
    rw [hres] at hq
    exact hcross p hp q (hresmem q hq)
  · intro a ha
    unfold StateStore.has_insider_alerted
    rw [hins]
    exact decide_eq_false
      (foldl_erase_not_mem_of_mem a removed s.insider_alerted ha)
  · intro s' addr tok v now haddr
    unfold StateStore.update_wallet
    rw [if_neg haddr]

/-- Witness for `wallet_eviction_spec`: ceiling 1, two wallets; after
eviction exactly one wallet remains. -/
theorem wallet_eviction_spec_witness :
    (StateStore.evict_old_wallets 1
      { path := "p",
        wallet_stats :=
          [("w1", { first_seen := 10, markets_traded := ∅, total_volume := 5 }),
           ("w2", { first_seen := 20, markets_traded := ∅, total_volume := 7 })],
        insider_alerted := {"w1"} }).wallet_stats.length = 1 :=
  (wallet_eviction_spec 1
    { path := "p",
      wallet_stats :=
        [("w1", { first_seen := 10, markets_traded := ∅, total_volume := 5 }),
         ("w2", { first_seen := 20, markets_traded := ∅, total_volume := 7 })],
      insider_alerted := {"w1"} }
    (by decide) (by norm_num)).2.1

/-- Helper: unfolding `dict_get` one entry at a time. -/
theorem dict_get_cons {α : Type} (p : String × α) (l : List (String × α))
    (k : String) :
    dict_get (p :: l) k = if p.1 == k then some p.2 else dict_get l k := by
  unfold dict_get
  rw [List.find?_cons]
  by_cases h : (p.1 == k) = true <;> simp [h]

/-- Helper: `dict_set` walks past an entry whose key does not match. -/
theorem dict_set_cons_ne {α : Type} (p : String × α) (l : List (String × α))
    (k : String) (v : α) (h : (p.1 == k) = false) :
    dict_set (p :: l) k v = p :: dict_set l k v := by
  unfold dict_set
  rw [List.find?_cons]
  rw [h]
  by_cases hfind : (l.find? (fun q => q.1 == k)).isSome = true
  · rw [if_pos hfind, if_pos hfind, List.map_cons, if_neg (by simp [h])]
  · rw [if_neg hfind, if_neg hfind, List.cons_append]

/-- Helper: looking up the key just set returns the new value. -/
theorem dict_get_dict_set_self {α : Type} (k : String) (v : α) :
    ∀ l : List (String × α), dict_get (dict_set l k v) k = some v := by
  intro l
  induction l with
  | nil =>
    simp [dict_get, dict_set]
  | cons p t ih =>
    by_cases hpk : (p.1 == k) = true
    · unfold dict_set
      rw [List.find?_cons, hpk]
      simp only [Option.isSome_some, if_true]
      rw [List.map_cons, if_pos hpk, dict_get_cons]
      simp
    · have hpk' : (p.1 == k) = false := by simpa using hpk
      rw [dict_set_cons_ne p t k v hpk', dict_get_cons]
      rw [hpk']
      simpa using ih

/-- Helper: setting one key leaves lookups of other keys unchanged. -/
theorem dict_get_dict_set_ne {α : Type} (k k' : String) (v : α) (hne : k' ≠ k) :
    ∀ l : List (String × α), dict_get (dict_set l k v) k' = dict_get l k' := by
  intro l
  have hkk' : (k == k') = false := by
    simp only [beq_eq_false_iff_ne, ne_eq]
    exact fun h => hne h.symm
  induction l with
  | nil =>
    simp [dict_get, dict_set, hkk']
  | cons p t ih =>
    by_cases hpk : (p.1 == k) = true
    · have hpeq : p.1 = k := by simpa using hpk
      have hpk2 : (p.1 == k') = false := by
        simp only [beq_eq_false_iff_ne, ne_eq, hpeq]
        exact fun h => hne h.symm
      unfold dict_set
      rw [List.find?_cons, hpk]
      simp only [Option.isSome_some, if_true]
      rw [List.map_cons, if_pos hpk, dict_get_cons, dict_get_cons, hpk2, hkk']
      simp only [Bool.false_eq_true, if_false]
      by_cases hfind : (t.find? (fun q => q.1 == k)).isSome = true
      · have hm : t.map (fun q => if q.1 == k then (k, v) else q) = dict_set t k v := by
          unfold dict_set
          rw [if_pos hfind]
        rw [hm]
        exact ih
      · have hnone : t.find? (fun q => q.1 == k) = none := by
          cases hfe : t.find? (fun q => q.1 == k)
          · rfl
          · rw [hfe] at hfind
            simp at hfind
        have hm : t.map (fun q => if q.1 == k then (k, v) else q) = t := by
          have hall := List.find?_eq_none.mp hnone
          calc t.map (fun q => if q.1 == k then (k, v) else q) = t.map id := by
                apply List.map_congr_left
                intro a ha
                simp [hall a ha]
            _ = t := List.map_id t
        rw [hm]
    · have hpk' : (p.1 == k) = false := by simpa using hpk
      rw [dict_set_cons_ne p t k v hpk', dict_get_cons, dict_get_cons]
      by_cases hpk2 : (p.1 == k') = true
      · rw [hpk2]
        rfl
      · have h2 : (p.1 == k') = false := by simpa using hpk2
        rw [h2]
        simpa using ih

/-- Helper: with duplicate-free keys, `find?` by key is determined by
membership. -/
theorem find_key_eq_some_iff {β : Type} (k : String) (p : String × β) :
    ∀ l : List (String × β), (l.map Prod.fst).Nodup →
      (l.find? (fun q => q.1 == k) = some p ↔ p ∈ l ∧ p.1 = k)
  | [], _ => by simp
  | q :: t, hnd => by
    rw [List.map_cons, List.nodup_cons] at hnd
    obtain ⟨hq_not, htnd⟩ := hnd
    by_cases hqk : (q.1 == k) = true
    · have hqeq : q.1 = k := by simpa using hqk
      simp only [List.find?_cons, hqk]
      constructor
      · intro h
        rw [Option.some_inj] at h
        subst h
        exact ⟨List.mem_cons_self q t, hqeq⟩
      · rintro ⟨hmem, hpk⟩
        rcases List.mem_cons.mp hmem with heq | hpt
        · rw [heq]
        · exfalso
          apply hq_not
          rw [hqeq, ← hpk]
          exact List.mem_map_of_mem Prod.fst hpt
    · have hqk' : (q.1 == k) = false := by simpa using hqk
      simp only [List.find?_cons, hqk']
      rw [find_key_eq_some_iff k p t htnd]
      constructor
      · rintro ⟨hpt, hpk⟩
        exact ⟨List.mem_cons_of_mem q hpt, hpk⟩
      · rintro ⟨hmem, hpk⟩
        rcases List.mem_cons.mp hmem with heq | hpt
        · exfalso
          rw [← heq, hpk] at hqk'
          simp at hqk'
        · exact ⟨hpt, hpk⟩

/-- Helper: with duplicate-free keys, `find?` by key is invariant under
permutation. -/
theorem find_key_perm {β : Type} (k : String) (l l' : List (String × β))
    (hperm : List.Perm l l') (hnd : (l.map Prod.fst).Nodup) :
    l.find? (fun q => q.1 == k) = l'.find? (fun q => q.1 == k) := by
  have hnd' : (l'.map Prod.fst).Nodup := ((hperm.map Prod.fst).nodup_iff).mp hnd
  cases hfe : l.find? (fun q => q.1 == k) with
  | some p =>
    have hm := (find_key_eq_some_iff k p l hnd).mp hfe
    exact ((find_key_eq_some_iff k p l' hnd').mpr
      ⟨hperm.mem_iff.mp hm.1, hm.2⟩).symm
  | none =>
    have hall := List.find?_eq_none.mp hfe
    symm
    rw [List.find?_eq_none]
    intro x hx
    exact hall x (hperm.mem_iff.mpr hx)

/-- Helper: `find?` by key commutes with a key-preserving map. -/
theorem find_key_map {β γ : Type} (k : String) (f : String × β → String × γ)
    (hf : ∀ p, (f p).1 = p.1) :
    ∀ l : List (String × β),
      (l.map f).find? (fun q => q.1 == k) =
        (l.find? (fun q => q.1 == k)).map f
  | [] => rfl
  | p :: t => by
    simp only [List.map_cons, List.find?_cons, hf]
    cases hpk : (p.1 == k)
    · simpa using find_key_map k f hf t
    · rfl

/-- Helper: looking up a key after folding `dict_set` over fresh entries with
duplicate-free keys finds the folded entry for that key, if any. -/
theorem dict_get_foldl_dict_set {β γ : Type} (convVal : String × β → γ) (k : String) :
    ∀ (out : List (String × β)) (acc : List (String × γ)),
      (out.map Prod.fst).Nodup →
      dict_get (out.foldl (fun l p => dict_set l p.1 (convVal p)) acc) k =
        (match out.find? (fun p => p.1 == k) with
         | some p => some (convVal p)
         | none => dict_get acc k)
  | [], acc, _ => rfl
  | p :: t, acc, hnd => by
    rw [List.map_cons, List.nodup_cons] at hnd
    obtain ⟨hp_not, htnd⟩ := hnd
    rw [List.foldl_cons]
    by_cases hpk : (p.1 == k) = true
    · have hpeq : p.1 = k := by simpa using hpk
      simp only [List.find?_cons, hpk]
      rw [dict_get_foldl_dict_set convVal k t (dict_set acc p.1 (convVal p)) htnd]
      have hnone : t.find? (fun q => q.1 == k) = none := by
        rw [List.find?_eq_none]
        intro x hx
        simp only [beq_iff_eq]
        intro hxk
        apply hp_not
        rw [hpeq, ← hxk]
        exact List.mem_map_of_mem Prod.fst hx
      rw [hnone, hpeq]
      exact dict_get_dict_set_self k (convVal p) acc
    · have hpk' : (p.1 == k) = false := by simpa using hpk
      simp only [List.find?_cons, hpk']
      rw [dict_get_foldl_dict_set convVal k t (dict_set acc p.1 (convVal p)) htnd]
      cases hfe : t.find? (fun q => q.1 == k) with
      | some q => rfl
      | none =>
        exact dict_get_dict_set_ne p.1 k (convVal p)
          (fun h => by rw [h] at hpk'; simp at hpk') acc

/-- Helper: the trade-restoring fold of `load` does not touch the outcome
map. -/
theorem trades_fold_state (maxlen : Nat) :
    ∀ (trades : List String) (acc : StateStore),
      (trades.foldl
        (fun acc tid =>
          { acc with processed_trades := dequeAppend maxlen acc.processed_trades tid,
                     processed_trades_set := insert tid acc.processed_trades_set })
        acc).state = acc.state
  | [], _ => rfl
  | t :: rest, acc => by
    rw [List.foldl_cons]
    exact trades_fold_state maxlen rest _

/-- Helper: membership in the trade set restored by `load`'s fold. -/
theorem trades_fold_set_mem (maxlen : Nat) (x : String) :
    ∀ (trades : List String) (acc : StateStore),
      (x ∈ (trades.foldl
        (fun acc tid =>
          { acc with processed_trades := dequeAppend maxlen acc.processed_trades tid,
                     processed_trades_set := insert tid acc.processed_trades_set })
        acc).processed_trades_set ↔ x ∈ trades ∨ x ∈ acc.processed_trades_set)
  | [], acc => by simp
  | t :: rest, acc => by
    rw [List.foldl_cons]
    rw [trades_fold_set_mem maxlen x rest _]
    simp only [Finset.mem_insert, List.mem_cons]
    tauto

/-- Helper: the outcome-restoring fold of `load` does not touch the
processed-trade set. -/
theorem outcomes_fold_processed_set (prs : String → ℚ) :
    ∀ (outs : List (String × OutcomePayload)) (acc : StateStore),
      (outs.foldl
        (fun acc p =>
          { acc with state := dict_set acc.state p.1 (StateStore.payload_outcome prs p) })
        acc).processed_trades_set = acc.processed_trades_set
  | [], _ => rfl
  | p :: rest, acc => by
    rw [List.foldl_cons]
    exact outcomes_fold_processed_set prs rest _

/-- Helper: the outcome-restoring fold of `load`, viewed on the outcome map
alone. -/
theorem outcomes_fold_state (prs : String → ℚ) :
    ∀ (outs : List (String × OutcomePayload)) (acc : StateStore),
      (outs.foldl
        (fun acc p =>
          { acc with state := dict_set acc.state p.1 (StateStore.payload_outcome prs p) })
        acc).state =
        outs.foldl (fun l p => dict_set l p.1 (StateStore.payload_outcome prs p)) acc.state
  | [], _ => rfl
  | p :: rest, acc => by
    rw [List.foldl_cons, List.foldl_cons]
    exact outcomes_fold_state prs rest _

/-- Helper: parsing inverts formatting on a timestamp the parser handles. -/
theorem parse_format_datetime (fmt : ℚ → String) (prs : String → ℚ)
    (v : Option ℚ) (h : ∀ t, v = some t → prs (fmt t) = t ∧ fmt t ≠ "") :
    StateStore.parse_datetime prs (StateStore.format_datetime fmt v) = v := by
  cases v with
  | none => rfl
  | some t =>
    obtain ⟨h1, h2⟩ := h t rfl
    simp [StateStore.format_datetime, StateStore.parse_datetime, h2, h1]

/-- C9: for every state store (with the dictionary invariants Python
guarantees: duplicate-free keys, each entry's `outcome_id` equal to its key,
membership set in sync with the deque) and any ISO-8601 formatter/parser
pair that round-trips the stored timestamps ("timestamp precision
permitting"), calling `save` and then `load` on the written file reproduces
identical `OutcomeState` values for every outcome id and restores the
processed-trade set membership. -/
theorem save_load_round_trip (s : StateStore) (fmt : ℚ → String)
    (prs : String → ℚ) (path2 : String) (maxlen : Nat)
    (hkeys : (s.state.map Prod.fst).Nodup)
    (hoid : ∀ p ∈ s.state, p.2.outcome_id = p.1)
    (hfmt : ∀ t ∈ s.state_timestamps, prs (fmt t) = t ∧ fmt t ≠ "")
    (hset : ∀ x, x ∈ s.processed_trades_set ↔ x ∈ s.processed_trades) :
    (∀ oid, (StateStore.load prs maxlen (empty_store path2)
        (SavedPayload.toRaw (StateStore.save_payload fmt s))).get oid = s.get oid) ∧
    (∀ tid, (StateStore.load prs maxlen (empty_store path2)
        (SavedPayload.toRaw (StateStore.save_payload fmt s))).has_processed_trade tid =
      s.has_processed_trade tid) := by
  have hloaded : StateStore.load prs maxlen (empty_store path2)
      (SavedPayload.toRaw (StateStore.save_payload fmt s)) =
      ((s.state.map (fun p => (p.1, StateStore.outcome_payload fmt p.2))).insertionSort
          StateStore.keyLE).foldl
        (fun acc p =>
          { acc with state := dict_set acc.state p.1 (StateStore.payload_outcome prs p) })
        (s.processed_trades.foldl
          (fun acc tid =>
            { acc with processed_trades := dequeAppend maxlen acc.processed_trades tid,
                       processed_trades_set := insert tid acc.processed_trades_set })
          (empty_store path2)) := rfl
  have hkeys_mapped :
      ((s.state.map (fun p => (p.1, StateStore.outcome_payload fmt p.2))).map Prod.fst).Nodup := by
    rw [List.map_map]
    exact hkeys
  have hperm : List.Perm
      ((s.state.map (fun p => (p.1, StateStore.outcome_payload fmt p.2))).insertionSort
        StateStore.keyLE)
      (s.state.map (fun p => (p.1, StateStore.outcome_payload fmt p.2))) :=
    List.perm_insertionSort _ _
  have hkeys_outs :
      (((s.state.map (fun p => (p.1, StateStore.outcome_payload fmt p.2))).insertionSort
        StateStore.keyLE).map Prod.fst).Nodup :=
    ((hperm.map Prod.fst).nodup_iff).mpr hkeys_mapped
  constructor
  · intro oid
    rw [hloaded]
    unfold StateStore.get
    rw [outcomes_fold_state prs _ _, trades_fold_state maxlen _ _,
      show (empty_store path2).state = [] from rfl]
    rw [dict_get_foldl_dict_set (fun p => StateStore.payload_outcome prs p) oid _ [] hkeys_outs]
    rw [find_key_perm oid _ _ hperm hkeys_outs]
    rw [find_key_map oid (fun p => (p.1, StateStore.outcome_payload fmt p.2))
      (fun p => rfl) s.state]
    cases hfe : s.state.find? (fun q => q.1 == oid) with
    | none => simp [dict_get, hfe]
    | some p =>
      have hp_mem : p ∈ s.state := List.mem_of_find?_eq_some hfe
      have hpoid := hoid p hp_mem
      have hts : ∀ t, t ∈ p.2.last_seen_timestamp.toList ++
          p.2.last_alerted_timestamp.toList ++ p.2.first_seen_timestamp.toList →
          t ∈ s.state_timestamps := by
        intro t ht
        unfold StateStore.state_timestamps
        exact List.mem_flatMap.mpr ⟨p, hp_mem, ht⟩
      have h1 : StateStore.parse_datetime prs
          (StateStore.format_datetime fmt p.2.last_seen_timestamp) =
          p.2.last_seen_timestamp :=
        parse_format_datetime fmt prs _
          (fun t htv => hfmt t (hts t (by rw [htv]; simp)))
      have h2 : StateStore.parse_datetime prs
          (StateStore.format_datetime fmt p.2.last_alerted_timestamp) =
          p.2.last_alerted_timestamp :=
        parse_format_datetime fmt prs _
          (fun t htv => hfmt t (hts t (by rw [htv]; simp)))
      have h3 : StateStore.parse_datetime prs
          (StateStore.format_datetime fmt p.2.first_seen_timestamp) =
          p.2.first_seen_timestamp :=
        parse_format_datetime fmt prs _
          (fun t htv => hfmt t (hts t (by rw [htv]; simp)))
      have hrec : StateStore.payload_outcome prs
          (p.1, StateStore.outcome_payload fmt p.2) = p.2 := by
        have hfields : StateStore.payload_outcome prs
            (p.1, StateStore.outcome_payload fmt p.2) =
            ({ outcome_id := p.1,
               last_seen_price := p.2.last_seen_price,
               last_seen_timestamp := p.2.last_seen_timestamp,
               last_alerted_timestamp := p.2.last_alerted_timestamp,
               first_seen_timestamp := p.2.first_seen_timestamp } : OutcomeState) := by
          unfold StateStore.payload_outcome StateStore.outcome_payload
          simp [h1, h2, h3]
        rw [hfields, ← hpoid]
      simp [dict_get, hfe, hrec]
  · intro tid
    rw [hloaded]
    unfold StateStore.has_processed_trade
    rw [outcomes_fold_processed_set prs _ _]
    have hmem := trades_fold_set_mem maxlen tid s.processed_trades (empty_store path2)
    refine decide_eq_decide.mpr ?_
    rw [hmem]
    rw [hset tid]
    simp [empty_store]

/-- Witness for `save_load_round_trip`: a one-outcome, one-trade store with a
formatter/parser pair that round-trips its single timestamp value `5`. -/
theorem save_load_round_trip_witness :
    (StateStore.load (fun str => if str = "ts5" then (5 : ℚ) else 0) 50000
      (empty_store "state.json")
      (SavedPayload.toRaw (StateStore.save_payload
        (fun t => if t = (5 : ℚ) then "ts5" else "other")
        { path := "state.json"
          state := [("a",
            { outcome_id := "a"
              last_seen_price := some (1/2)
              last_seen_timestamp := some 5
              last_alerted_timestamp := none
              first_seen_timestamp := some 5 })]
          processed_trades := ["t1"]
          processed_trades_set := {"t1"} }))).get "a" =
    StateStore.get
      { path := "state.json"
        state := [("a",
          { outcome_id := "a"
            last_seen_price := some (1/2)
            last_seen_timestamp := some 5
            last_alerted_timestamp := none
            first_seen_timestamp := some 5 })]
        processed_trades := ["t1"]
        processed_trades_set := {"t1"} } "a" :=
  (save_load_round_trip
    { path := "state.json"
      state := [("a",
        { outcome_id := "a"
          last_seen_price := some (1/2)
          last_seen_timestamp := some 5
          last_alerted_timestamp := none
          first_seen_timestamp := some 5 })]
      processed_trades := ["t1"]
      processed_trades_set := {"t1"} }
    (fun t => if t = (5 : ℚ) then "ts5" else "other")
    (fun str => if str = "ts5" then (5 : ℚ) else 0)
    "state.json" 50000
    (by simp)
    (by
      intro p hp
      simp only [List.mem_singleton] at hp
      rw [hp])
    (by
      intro t ht
      simp [StateStore.state_timestamps] at ht
      subst ht
      exact ⟨by norm_num, by decide⟩)
    (by intro x; simp)).1 "a"

/-- Helper: after `upsert` the upserted outcome id has state. -/
theorem get_upsert_self (s : StateStore) (id : String) (price now : ℚ) :
    ((s.upsert id price now).get id).isSome = true := by
  unfold StateStore.upsert StateStore.get
  dsimp only
  rw [dict_get_dict_set_self]
  rfl

/-- Helper: `upsert` never removes an outcome id. -/
theorem get_upsert_isSome (s : StateStore) (id id' : String) (price now : ℚ)
    (h : (s.get id').isSome = true) :
    ((s.upsert id price now).get id').isSome = true := by
  by_cases hid : id' = id
  · subst hid
    exact get_upsert_self s id' price now
  · unfold StateStore.upsert StateStore.get
    dsimp only
    rw [dict_get_dict_set_ne id id' _ hid]
    exact h

/-- Helper: `upsert` of a different id does not create this one. -/
theorem get_upsert_none (s : StateStore) (id id' : String) (price now : ℚ)
    (hne : id' ≠ id) (h : s.get id' = none) :
    (s.upsert id price now).get id' = none := by
  unfold StateStore.upsert StateStore.get
  dsimp only
  rw [dict_get_dict_set_ne id id' _ hne]
  exact h

/-- Helper: `mark_alerted` never removes an outcome id. -/
theorem get_mark_alerted_isSome (s : StateStore) (id id' : String) (now : ℚ)
    (h : (s.get id').isSome = true) :
    ((s.mark_alerted id now).get id').isSome = true := by
  unfold StateStore.mark_alerted
  cases hm : s.get id with
  | none => exact h
  | some st =>
    by_cases hid : id' = id
    · subst hid
      unfold StateStore.get
      dsimp only
      rw [dict_get_dict_set_self]
      rfl
    · unfold StateStore.get
      dsimp only
      rw [dict_get_dict_set_ne id id' _ hid]
      exact h

/-- Helper: `mark_alerted` of a different id does not create this one. -/
theorem get_mark_alerted_none (s : StateStore) (id id' : String) (now : ℚ)
    (hne : id' ≠ id) (h : s.get id' = none) :
    (s.mark_alerted id now).get id' = none := by
  unfold StateStore.mark_alerted
  cases hm : s.get id with
  | none => exact h
  | some st =>
    unfold StateStore.get
    dsimp only
    rw [dict_get_dict_set_ne id id' _ hne]
    exact h

/-- Helper: marking once per sent message never removes an outcome id. -/
theorem get_foldl_mark_alerted_isSome (id : String) (now : ℚ) :
    ∀ (msgs : List AlertMsg) (s : StateStore) (id' : String),
      (s.get id').isSome = true →
      ((msgs.foldl (fun s _ => s.mark_alerted id now) s).get id').isSome = true
  | [], _, _, h => h
  | _ :: rest, s, id', h => by
    rw [List.foldl_cons]
    exact get_foldl_mark_alerted_isSome id now rest _ id'
      (get_mark_alerted_isSome s id id' now h)

/-- Helper: marking a different id once per message does not create this
one. -/
theorem get_foldl_mark_alerted_none (id : String) (now : ℚ) :
    ∀ (msgs : List AlertMsg) (s : StateStore) (id' : String), id' ≠ id →
      s.get id' = none →
      (msgs.foldl (fun s _ => s.mark_alerted id now) s).get id' = none
  | [], _, _, _, h => h
  | _ :: rest, s, id', hne, h => by
    rw [List.foldl_cons]
    exact get_foldl_mark_alerted_none id now rest _ id' hne
      (get_mark_alerted_none s id id' now hne h)

/-- Helper: `groups_ids` over a cons. -/
theorem groups_ids_cons (p : String × List OutcomeSnapshot)
    (t : List (String × List OutcomeSnapshot)) :
    groups_ids (p :: t) = p.2.map (fun o => o.outcome_id) ++ groups_ids t := by
  unfold groups_ids
  rw [List.flatMap_cons]

/-- Helper: `group_append` walks past an entry with a different key. -/
theorem group_append_cons_ne (p : String × List OutcomeSnapshot)
    (t : List (String × List OutcomeSnapshot)) (key : String)
    (o : OutcomeSnapshot) (h : (p.1 == key) = false) :
    group_append (p :: t) key o = p :: group_append t key o := by
  unfold group_append
  rw [dict_get_cons, h]
  simp only [Bool.false_eq_true, if_false]
  cases hg : dict_get t key with
  | some ex => exact dict_set_cons_ne p t key (ex ++ [o]) h
  | none => exact dict_set_cons_ne p t key [o] h

/-- Helper: `group_append` on a matching head entry (with duplicate-free
keys) appends the outcome to that entry's list. -/
theorem group_append_cons_eq (p : String × List OutcomeSnapshot)
    (t : List (String × List OutcomeSnapshot)) (key : String)
    (o : OutcomeSnapshot) (h : (p.1 == key) = true)
    (hnd : ((p :: t).map Prod.fst).Nodup) :
    group_append (p :: t) key o = (key, p.2 ++ [o]) :: t := by
  rw [List.map_cons, List.nodup_cons] at hnd
  obtain ⟨hp_not, _⟩ := hnd
  have hpeq : p.1 = key := by simpa using h
  unfold group_append
  rw [dict_get_cons, h]
  simp only [if_true]
  unfold dict_set
  rw [List.find?_cons, h]
  simp only [Option.isSome_some, if_true]
  rw [List.map_cons, if_pos h]
  congr 1
  have hall : ∀ q ∈ t, (q.1 == key) = false := by
    intro q hq
    simp only [beq_eq_false_iff_ne, ne_eq]
    intro hqk
    apply hp_not
    rw [hpeq, ← hqk]
    exact List.mem_map_of_mem Prod.fst hq
  calc t.map (fun q => if q.1 == key then (key, p.2 ++ [o]) else q) = t.map id := by
        apply List.map_congr_left
        intro q hq
        simp [hall q hq]
    _ = t := List.map_id t

/-- Helper: the appended outcome's id is always listed after
`group_append`. -/
theorem group_append_self (key : String) (o : OutcomeSnapshot) :
    ∀ groups : List (String × List OutcomeSnapshot),
      o.outcome_id ∈ groups_ids (group_append groups key o)
  | [] => by
    simp [group_append, dict_get, dict_set, groups_ids]
  | p :: t => by
    by_cases h : (p.1 == key) = true
    · have hpeq : p.1 = key := by simpa using h
      unfold group_append
      rw [dict_get_cons, h]
      simp only [if_true]
      unfold dict_set
      rw [List.find?_cons, h]
      simp only [Option.isSome_some, if_true]
      rw [List.map_cons, if_pos h, groups_ids_cons]
      apply List.mem_append_left
      exact List.mem_map_of_mem _ (List.mem_append_right p.2 (List.mem_singleton_self o))
    · have h' : (p.1 == key) = false := by simpa using h
      rw [group_append_cons_ne p t key o h', groups_ids_cons]
      exact List.mem_append_right _ (group_append_self key o t)

/-- Helper: `group_append` keeps every previously listed id (duplicate-free
keys). -/
theorem group_append_mono (key : String) (o : OutcomeSnapshot) (x : String) :
    ∀ groups : List (String × List OutcomeSnapshot),
      (groups.map Prod.fst).Nodup →
      x ∈ groups_ids groups → x ∈ groups_ids (group_append groups key o)
  | [], _, hx => by simp [groups_ids] at hx
  | p :: t, hnd, hx => by
    rw [groups_ids_cons] at hx
    by_cases h : (p.1 == key) = true
    · rw [group_append_cons_eq p t key o h hnd, groups_ids_cons]
      rcases List.mem_append.mp hx with hl | hr
      · apply List.mem_append_left
        rcases List.mem_map.mp hl with ⟨oo, hoo, hoid⟩
        exact List.mem_map.mpr ⟨oo, List.mem_append_left _ hoo, hoid⟩
      · exact List.mem_append_right _ hr
    · have h' : (p.1 == key) = false := by simpa using h
      rw [List.map_cons, List.nodup_cons] at hnd
      rw [group_append_cons_ne p t key o h', groups_ids_cons]
      rcases List.mem_append.mp hx with hl | hr
      · exact List.mem_append_left _ hl
      · exact List.mem_append_right _ (group_append_mono key o x t hnd.2 hr)

/-- Helper: any id listed after `group_append` was either listed before or is
the appended outcome's id (duplicate-free keys). -/
theorem group_append_sub (key : String) (o : OutcomeSnapshot) (x : String) :
    ∀ groups : List (String × List OutcomeSnapshot),
      (groups.map Prod.fst).Nodup →
      x ∈ groups_ids (group_append groups key o) →
      x ∈ groups_ids groups ∨ x = o.outcome_id
  | [], _, hx => by
    simp [group_append, dict_get, dict_set, groups_ids] at hx
    right
    exact hx
  | p :: t, hnd, hx => by
    by_cases h : (p.1 == key) = true
    · rw [group_append_cons_eq p t key o h hnd, groups_ids_cons] at hx
      rw [groups_ids_cons]
      rcases List.mem_append.mp hx with hl | hr
      · rcases List.mem_map.mp hl with ⟨oo, hoo, hoid⟩
        rcases List.mem_append.mp hoo with ho1 | ho2
        · exact Or.inl (List.mem_append_left _ (List.mem_map.mpr ⟨oo, ho1, hoid⟩))
        · rw [List.mem_singleton] at ho2
          subst ho2
          exact Or.inr hoid.symm
      · exact Or.inl (List.mem_append_right _ hr)
    · have h' : (p.1 == key) = false := by simpa using h
      rw [List.map_cons, List.nodup_cons] at hnd
      rw [group_append_cons_ne p t key o h', groups_ids_cons] at hx
      rw [groups_ids_cons]
      rcases List.mem_append.mp hx with hl | hr
      · exact Or.inl (List.mem_append_left _ hl)
      · rcases group_append_sub key o x t hnd.2 hr with hin | heq
        · exact Or.inl (List.mem_append_right _ hin)
        · exact Or.inr heq

/-- Helper: the keys present after `group_append`. -/
theorem group_append_keys_sub (key : String) (o : OutcomeSnapshot) (x : String) :
    ∀ groups : List (String × List OutcomeSnapshot),
      x ∈ (group_append groups key o).map Prod.fst →
      x ∈ groups.map Prod.fst ∨ x = key
  | [], hx => by
    simp [group_append, dict_get, dict_set] at hx
    right
    exact hx
  | p :: t, hx => by
    by_cases h : (p.1 == key) = true
    · unfold group_append at hx
      rw [dict_get_cons, h] at hx
      simp only [if_true] at hx
      unfold dict_set at hx
      rw [List.find?_cons, h] at hx
      simp only [Option.isSome_some, if_true] at hx
      rw [List.map_cons, if_pos h, List.map_cons] at hx
      rcases List.mem_cons.mp hx with heq | ht
      · exact Or.inr heq
      · rw [List.map_map] at ht
        rcases List.mem_map.mp ht with ⟨q0, hq0, hq0x⟩
        by_cases hqk : (q0.1 == key) = true
        · right
          rw [← hq0x]
          simp [Function.comp, hqk]
        · left
          rw [List.map_cons]
          apply List.mem_cons_of_mem
          rw [← hq0x]
          have hcomp : (Prod.fst ∘ fun q =>
              if (q.1 == key) = true then (key, p.2 ++ [o]) else q) q0 = q0.1 := by
            simp [Function.comp, hqk]
          rw [hcomp]
          exact List.mem_map_of_mem Prod.fst hq0
    · have h' : (p.1 == key) = false := by simpa using h
      rw [group_append_cons_ne p t key o h', List.map_cons] at hx
      rcases List.mem_cons.mp hx with heq | ht
      · left
        rw [List.map_cons]
        exact heq ▸ List.mem_cons_self p.1 _
      · rcases group_append_keys_sub key o x t ht with hin | heq
        · left
          rw [List.map_cons]
          exact List.mem_cons_of_mem _ hin
        · exact Or.inr heq

/-- Helper: `group_append` preserves duplicate-free keys. -/
theorem group_append_nodup (key : String) (o : OutcomeSnapshot) :
    ∀ groups : List (String × List OutcomeSnapshot),
      (groups.map Prod.fst).Nodup →
      ((group_append groups key o).map Prod.fst).Nodup
  | [], _ => by simp [group_append, dict_get, dict_set]
  | p :: t, hnd => by
    by_cases h : (p.1 == key) = true
    · rw [group_append_cons_eq p t key o h hnd, List.map_cons, List.nodup_cons]
      rw [List.map_cons, List.nodup_cons] at hnd
      have hpeq : p.1 = key := by simpa using h
      exact ⟨hpeq ▸ hnd.1, hnd.2⟩
    · have h' : (p.1 == key) = false := by simpa using h
      rw [List.map_cons, List.nodup_cons] at hnd
      rw [group_append_cons_ne p t key o h', List.map_cons, List.nodup_cons]
      refine ⟨?_, group_append_nodup key o t hnd.2⟩
      intro hmem
      rcases group_append_keys_sub key o p.1 t hmem with hin | heq
      · exact hnd.1 hin
      · rw [heq] at h'
        simp at h'

/-- Helper: the new-market rule never fires for an outcome with prior
state. -/
theorem new_market_evaluate_some (o : OutcomeSnapshot) (st : OutcomeState)
    (c : NewMarketConfig) : new_market.evaluate o (some st) c = none := by
  unfold new_market.evaluate
  split
  · rfl
  · rfl

/-- Helper: a fired new-market message carries the snapshot's outcome id. -/
theorem new_market_evaluate_outcome_id (o : OutcomeSnapshot)
    (ex : Option OutcomeState) (c : NewMarketConfig) (m : NewMarketMsg)
    (h : new_market.evaluate o ex c = some m) : m.outcome_id = o.outcome_id := by
  unfold new_market.evaluate at h
  split at h
  · exact absurd h (by simp)
  · cases ex with
    | some _ => exact absurd h (by simp)
    | none =>
      rw [Option.some_inj] at h
      rw [← h]

/-- Helper: `sent_nm_ids` distributes over append. -/
theorem sent_nm_ids_append (a b : List AlertMsg) :
    sent_nm_ids (a ++ b) = sent_nm_ids a ++ sent_nm_ids b := by
  unfold sent_nm_ids
  rw [List.filterMap_append]

/-- Helper: any id carried by a `new_market` message out of `build_alerts`
comes from the new-market rule itself. -/
theorem sent_nm_ids_build_alerts (o : OutcomeSnapshot) (ex : Option OutcomeState)
    (config : BotConfig) (now : ℚ) (x : String)
    (hx : x ∈ sent_nm_ids (build_alerts o ex config now)) :
    ∃ m, new_market.evaluate o ex config.alerts.new_market = some m ∧
      x = m.outcome_id := by
  unfold build_alerts at hx
  rw [sent_nm_ids_append, sent_nm_ids_append] at hx
  have hps : sent_nm_ids
      ((price_spike.evaluate o ex config.alerts.price_spike now).map
        AlertMsg.price_spike).toList = [] := by
    cases price_spike.evaluate o ex config.alerts.price_spike now <;> rfl
  have hre : sent_nm_ids
      ((range_entry.evaluate o ex config.alerts.range_entry
        config.filters.probability).map AlertMsg.range_entry).toList = [] := by
    cases range_entry.evaluate o ex config.alerts.range_entry
      config.filters.probability <;> rfl
  rw [hps, hre] at hx
  simp only [List.append_nil, List.nil_append] at hx
  cases hnm : new_market.evaluate o ex config.alerts.new_market with
  | none =>
    rw [hnm] at hx
    simp [sent_nm_ids] at hx
  | some m =>
    rw [hnm] at hx
    unfold sent_nm_ids at hx
    simp at hx
    subst hx
    exact ⟨m, rfl, rfl⟩

/-- Helper: the per-snapshot loop never removes an outcome id from the
store. -/
theorem loop_get_isSome (config : BotConfig) (now : ℚ) (x : String) :
    ∀ (snaps : List OutcomeSnapshot) (st : StateStore)
      (groups : List (String × List OutcomeSnapshot)) (sent : List AlertMsg),
      (st.get x).isSome = true →
      ((run_once_loop config now snaps st groups sent).1.get x).isSome = true
  | [], _, _, _, h => h
  | o :: rest, st, groups, sent, h => by
    rw [run_once_loop]
    dsimp only
    by_cases h1 : ¬ passes_filters o config.filters now = true
    · rw [if_pos h1]
      exact loop_get_isSome config now x rest _ _ _
        (get_upsert_isSome st o.outcome_id x o.price now h)
    · rw [if_neg h1]
      by_cases h2 : config.alerts.new_market.enabled = true ∧
          st.get o.outcome_id = none
      · rw [if_pos h2]
        exact loop_get_isSome config now x rest _ _ _
          (get_upsert_isSome st o.outcome_id x o.price now h)
      · rw [if_neg h2]
        exact loop_get_isSome config now x rest _ _ _
          (get_upsert_isSome _ o.outcome_id x o.price now
            (get_foldl_mark_alerted_isSome o.outcome_id now _ st x h))

/-- Helper: every snapshot processed by the loop ends up recorded in the
store (all three branches `upsert`). -/
theorem loop_observed (config : BotConfig) (now : ℚ) :
    ∀ (snaps : List OutcomeSnapshot) (st : StateStore)
      (groups : List (String × List OutcomeSnapshot)) (sent : List AlertMsg)
      (o : OutcomeSnapshot), o ∈ snaps →
      ((run_once_loop config now snaps st groups sent).1.get o.outcome_id).isSome = true
  | o' :: rest, st, groups, sent, o, hmem => by
    rcases List.mem_cons.mp hmem with heq | ht
    · subst heq
      rw [run_once_loop]
      dsimp only
      by_cases h1 : ¬ passes_filters o config.filters now = true
      · rw [if_pos h1]
        exact loop_get_isSome config now o.outcome_id rest _ _ _
          (get_upsert_self st o.outcome_id o.price now)
      · rw [if_neg h1]
        by_cases h2 : config.alerts.new_market.enabled = true ∧
            st.get o.outcome_id = none
        · rw [if_pos h2]
          exact loop_get_isSome config now o.outcome_id rest _ _ _
            (get_upsert_self st o.outcome_id o.price now)
        · rw [if_neg h2]
          exact loop_get_isSome config now o.outcome_id rest _ _ _
            (get_upsert_self _ o.outcome_id o.price now)
    · rw [run_once_loop]
      dsimp only
      by_cases h1 : ¬ passes_filters o' config.filters now = true
      · rw [if_pos h1]
        exact loop_observed config now rest _ _ _ o ht
      · rw [if_neg h1]
        by_cases h2 : config.alerts.new_market.enabled = true ∧
            st.get o'.outcome_id = none
        · rw [if_pos h2]
          exact loop_observed config now rest _ _ _ o ht
        · rw [if_neg h2]
          exact loop_observed config now rest _ _ _ o ht

/-- Helper: an id already listed for a batched new-market message stays
listed as the loop continues (duplicate-free group keys). -/
theorem loop_groups_mono (config : BotConfig) (now : ℚ) (x : String) :
    ∀ (snaps : List OutcomeSnapshot) (st : StateStore)
      (groups : List (String × List OutcomeSnapshot)) (sent : List AlertMsg),
      (groups.map Prod.fst).Nodup →
      x ∈ groups_ids groups →
      x ∈ groups_ids (run_once_loop config now snaps st groups sent).2.1
  | [], _, _, _, _, hx => hx
  | o :: rest, st, groups, sent, hnd, hx => by
    rw [run_once_loop]
    dsimp only
    by_cases h1 : ¬ passes_filters o config.filters now = true
    · rw [if_pos h1]
      exact loop_groups_mono config now x rest _ _ _ hnd hx
    · rw [if_neg h1]
      by_cases h2 : config.alerts.new_market.enabled = true ∧
          st.get o.outcome_id = none
      · rw [if_pos h2]
        exact loop_groups_mono config now x rest _ _ _
          (group_append_nodup (group_key o) o groups hnd)
          (group_append_mono (group_key o) o x groups hnd hx)
      · rw [if_neg h2]
        exact loop_groups_mono config now x rest _ _ _ hnd hx

/-- Helper: with new-market alerting enabled, an unseen id whose occurrences
all pass the filters is grouped for a batched new-market message on its
first occurrence. -/
theorem loop_fires (config : BotConfig) (now : ℚ) (id : String)
    (hen : config.alerts.new_market.enabled = true) :
    ∀ (snaps : List OutcomeSnapshot) (st : StateStore)
      (groups : List (String × List OutcomeSnapshot)) (sent : List AlertMsg),
      (groups.map Prod.fst).Nodup →
      st.get id = none →
      (∀ o ∈ snaps, o.outcome_id = id → passes_filters o config.filters now = true) →
      (∃ o ∈ snaps, o.outcome_id = id) →
      id ∈ groups_ids (run_once_loop config now snaps st groups sent).2.1
  | [], _, _, _, _, _, _, hex => by
    obtain ⟨o, ho, _⟩ := hex
    exact absurd ho (List.not_mem_nil o)
  | o :: rest, st, groups, sent, hnd, hnone, hall, hex => by
    rw [run_once_loop]
    dsimp only
    by_cases hoid : o.outcome_id = id
    · have hpass := hall o (List.mem_cons_self o rest) hoid
      rw [if_neg (fun hc => hc hpass)]
      have h2 : config.alerts.new_market.enabled = true ∧
          st.get o.outcome_id = none := ⟨hen, by rw [hoid]; exact hnone⟩
      rw [if_pos h2]
      apply loop_groups_mono config now id rest _ _ _
        (group_append_nodup (group_key o) o groups hnd)
      rw [← hoid]
      exact group_append_self (group_key o) o groups
    · have hne : id ≠ o.outcome_id := fun h => hoid h.symm
      have hex' : ∃ o' ∈ rest, o'.outcome_id = id := by
        obtain ⟨o', ho', hid'⟩ := hex
        rcases List.mem_cons.mp ho' with heq | ht
        · exact absurd (heq ▸ hid') hoid
        · exact ⟨o', ht, hid'⟩
      have hall' : ∀ o' ∈ rest, o'.outcome_id = id →
          passes_filters o' config.filters now = true :=
        fun o' h h' => hall o' (List.mem_cons_of_mem o h) h'
      by_cases h1 : ¬ passes_filters o config.filters now = true
      · rw [if_pos h1]
        exact loop_fires config now id hen rest _ _ _ hnd
          (get_upsert_none st o.outcome_id id o.price now hne hnone) hall' hex'
      · rw [if_neg h1]
        by_cases h2 : config.alerts.new_market.enabled = true ∧
            st.get o.outcome_id = none
        · rw [if_pos h2]
          exact loop_fires config now id hen rest _ _ _
            (group_append_nodup (group_key o) o groups hnd)
            (get_upsert_none st o.outcome_id id o.price now hne hnone) hall' hex'
        · rw [if_neg h2]
          exact loop_fires config now id hen rest _ _ _ hnd
            (get_upsert_none _ o.outcome_id id o.price now hne
              (get_foldl_mark_alerted_none o.outcome_id now _ st id hne hnone))
            hall' hex'

/-- Helper: an id that already has state when the loop starts is never added
to a new-market group or message during the loop. -/
theorem loop_norefire (config : BotConfig) (now : ℚ) (id : String) :
    ∀ (snaps : List OutcomeSnapshot) (st : StateStore)
      (groups : List (String × List OutcomeSnapshot)) (sent : List AlertMsg),
      (groups.map Prod.fst).Nodup →
      (st.get id).isSome = true →
      id ∉ groups_ids groups →
      id ∉ sent_nm_ids sent →
      id ∉ groups_ids (run_once_loop config now snaps st groups sent).2.1 ∧
      id ∉ sent_nm_ids (run_once_loop config now snaps st groups sent).2.2
  | [], _, _, _, _, _, hg, hs => ⟨hg, hs⟩
  | o :: rest, st, groups, sent, hnd, hsome, hg, hs => by
    rw [run_once_loop]
    dsimp only
    by_cases h1 : ¬ passes_filters o config.filters now = true
    · rw [if_pos h1]
      exact loop_norefire config now id rest _ _ _ hnd
        (get_upsert_isSome st o.outcome_id id o.price now hsome) hg hs
    · rw [if_neg h1]
      by_cases h2 : config.alerts.new_market.enabled = true ∧
          st.get o.outcome_id = none
      · rw [if_pos h2]
        have hne : id ≠ o.outcome_id := by
          intro heq
          rw [← heq] at h2
          rw [h2.2] at hsome
          simp at hsome
        refine loop_norefire config now id rest _ _ _
          (group_append_nodup (group_key o) o groups hnd)
          (get_upsert_isSome st o.outcome_id id o.price now hsome) ?_ hs
        intro hmem
        rcases group_append_sub (group_key o) o id groups hnd hmem with hin | heq
        · exact hg hin
        · exact hne heq
      · rw [if_neg h2]
        refine loop_norefire config now id rest _ _ _ hnd
          (get_upsert_isSome _ o.outcome_id id o.price now
            (get_foldl_mark_alerted_isSome o.outcome_id now _ st id hsome)) hg ?_
        rw [sent_nm_ids_append]
        intro hmem
        rcases List.mem_append.mp hmem with hl | hr
        · exact hs hl
        · obtain ⟨m, hm, hid⟩ := sent_nm_ids_build_alerts o (st.get o.outcome_id)
            config now id hr
          have hmo := new_market_evaluate_outcome_id o (st.get o.outcome_id)
            config.alerts.new_market m hm
          by_cases hoid : o.outcome_id = id
          · rw [hoid] at hm
            cases hst : st.get id with
            | none =>
              rw [hst] at hsome
              simp at hsome
            | some stv =>
              rw [hst] at hm
              rw [new_market_evaluate_some o stv config.alerts.new_market] at hm
              simp at hm
          · rw [hid, hmo] at hoid
            exact hoid rfl

/-- Helper: marking each outcome of one group never removes an outcome id. -/
theorem outs_mark_fold_isSome (now : ℚ) (x : String) :
    ∀ (outs : List OutcomeSnapshot) (st : StateStore),
      (st.get x).isSome = true →
      ((outs.foldl (fun s o => s.mark_alerted o.outcome_id now) st).get x).isSome = true
  | [], _, h => h
  | o :: rest, st, h => by
    rw [List.foldl_cons]
    exact outs_mark_fold_isSome now x rest _
      (get_mark_alerted_isSome st o.outcome_id x now h)

/-- Helper: flushing the batched new-market groups never removes an outcome
id. -/
theorem groups_mark_fold_isSome (now : ℚ) (x : String) :
    ∀ (groups : List (String × List OutcomeSnapshot)) (st : StateStore),
      (st.get x).isSome = true →
      ((groups.foldl
        (fun s kv => kv.2.foldl (fun s o => s.mark_alerted o.outcome_id now) s)
        st).get x).isSome = true
  | [], _, h => h
  | kv :: rest, st, h => by
    rw [List.foldl_cons]
    exact groups_mark_fold_isSome now x rest _
      (outs_mark_fold_isSome now x kv.2 st h)

/-- C2 (amended): with the new-market alert enabled, an outcome identifier
with no entry in the state store fires a new-market alert on the cycle of
its first observation provided that observation passes the configured
filters; an identifier that already has state never fires a new-market alert
on that cycle, regardless of price movement; and every observed identifier
is recorded in the store by the end of the cycle (so it can never fire on a
later cycle).  Together: at most one firing ever, exactly on the first
observation when that observation passes the filters. -/
theorem new_market_once_spec (config : BotConfig) (now : ℚ) (id : String)
    (snaps : List OutcomeSnapshot) (st : StateStore)
    (hen : config.alerts.new_market.enabled = true) :
    ((∀ o ∈ snaps, o.outcome_id = id →
        passes_filters o config.filters now = true) →
      (∃ o ∈ snaps, o.outcome_id = id) →
      st.get id = none →
      id ∈ new_market_fired (run_once config now snaps st)) ∧
    ((st.get id).isSome = true →
      id ∉ new_market_fired (run_once config now snaps st)) ∧
    (∀ o ∈ snaps,
      ((run_once config now snaps st).state.get o.outcome_id).isSome = true) := by
  refine ⟨fun hall hex hnone => ?_, fun hsome hmem => ?_, fun o ho => ?_⟩
  · unfold run_once new_market_fired
    dsimp only
    apply List.mem_append_left
    exact loop_fires config now id hen snaps st [] [] (by simp) hnone hall hex
  · unfold run_once new_market_fired at hmem
    dsimp only at hmem
    obtain ⟨hng, hns⟩ := loop_norefire config now id snaps st [] []
      (by simp) hsome (by simp [groups_ids]) (by simp [sent_nm_ids])
    rcases List.mem_append.mp hmem with hl | hr
    · exact hng hl
    · exact hns hr
  · unfold run_once
    dsimp only
    exact groups_mark_fold_isSome now o.outcome_id _ _
      (loop_observed config now snaps st [] [] o ho)

/-- C2 (counterexample to the claim as stated): with the new-market alert
enabled and the probability filter set to `[0.70, 0.90]`, an outcome first
observed at price `0.50` fails the filter chain, is recorded as seen without
any new-market alert, and — because it now has state — can never fire a
new-market alert on any later cycle either (here its second observation at
`0.80` passes the filters, yet nothing fires): the alert does not fire
"exactly once on the scan cycle of the outcome's first observation". -/
theorem new_market_counterexample :
    (let cfg : BotConfig :=
      { filters :=
          { probability := { enabled := true, min := 7/10, max := 9/10 }
            time_to_resolution := { enabled := false } } }
     let snap1 : OutcomeSnapshot :=
      { outcome_id := "a"
        market_id := "m"
        market_name := "M"
        market_url := "u"
        event_title := none
        outcome_name := "Yes"
        price := 1/2
        liquidity := 0
        volume := 0
        volume_24h := 0
        resolution_time := none }
     let snap2 : OutcomeSnapshot :=
      { outcome_id := "a"
        market_id := "m"
        market_name := "M"
        market_url := "u"
        event_title := none
        outcome_name := "Yes"
        price := 4/5
        liquidity := 0
        volume := 0
        volume_24h := 0
        resolution_time := none }
     let r1 := run_once cfg 0 [snap1] (empty_store "p")
     new_market_fired r1 = [] ∧
     (r1.state.get "a").isSome = true ∧
     passes_filters snap2 cfg.filters 60 = true ∧
     new_market_fired (run_once cfg 60 [snap2] r1.state) = []) := by
  dsimp only
  have hpf1 : passes_filters
      { outcome_id := "a", market_id := "m", market_name := "M",
        market_url := "u", event_title := none, outcome_name := "Yes",
        price := 1/2, liquidity := 0, volume := 0, volume_24h := 0,
        resolution_time := none }
      { probability := { enabled := true, min := 7/10, max := 9/10 }
        time_to_resolution := { enabled := false } } 0 = false := by
    unfold passes_filters probability.passes probability.normalize_bounds
    norm_num
  have hpf2 : passes_filters
      { outcome_id := "a", market_id := "m", market_name := "M",
        market_url := "u", event_title := none, outcome_name := "Yes",
        price := 4/5, liquidity := 0, volume := 0, volume_24h := 0,
        resolution_time := none }
      { probability := { enabled := true, min := 7/10, max := 9/10 }
        time_to_resolution := { enabled := false } } 60 = true := by
    unfold passes_filters probability.passes time_to_resolution.passes
      liquidity.passes volume_filter.passes probability.normalize_bounds
    norm_num
  have hrun1 : run_once
      { filters :=
          { probability := { enabled := true, min := 7/10, max := 9/10 }
            time_to_resolution := { enabled := false } } } 0
      [{ outcome_id := "a", market_id := "m", market_name := "M",
         market_url := "u", event_title := none, outcome_name := "Yes",
         price := 1/2, liquidity := 0, volume := 0, volume_24h := 0,
         resolution_time := none }] (empty_store "p") =
      { state := StateStore.upsert (empty_store "p") "a" (1/2) 0,
        groups := [], sent := [] } := by
    unfold run_once
    rw [run_once_loop]
    dsimp only
    rw [if_pos (by rw [hpf1]; simp)]
    rw [run_once_loop]
    rfl
  rw [hrun1]
  dsimp only
  have hsome1 : ((StateStore.upsert (empty_store "p") "a" (1/2) 0).get "a").isSome = true :=
    get_upsert_self (empty_store "p") "a" (1/2) 0
  refine ⟨by simp [new_market_fired, groups_ids, sent_nm_ids], hsome1, hpf2, ?_⟩
  unfold run_once new_market_fired
  rw [run_once_loop]
  dsimp only
  rw [if_neg (by rw [hpf2]; simp)]
  rw [if_neg (fun hc => by
    rw [hc.2] at hsome1
    simp at hsome1)]
  rw [run_once_loop]
  dsimp only
  have hbm : sent_nm_ids (build_alerts
      { outcome_id := "a", market_id := "m", market_name := "M",
        market_url := "u", event_title := none, outcome_name := "Yes",
        price := 4/5, liquidity := 0, volume := 0, volume_24h := 0,
        resolution_time := none }
      ((StateStore.upsert (empty_store "p") "a" (1/2) 0).get "a")
      { filters :=
          { probability := { enabled := true, min := 7/10, max := 9/10 }
            time_to_resolution := { enabled := false } } } 60) = [] := by
    unfold build_alerts
    rw [sent_nm_ids_append, sent_nm_ids_append]
    have hnm : new_market.evaluate
        { outcome_id := "a", market_id := "m", market_name := "M",
          market_url := "u", event_title := none, outcome_name := "Yes",
          price := 4/5, liquidity := 0, volume := 0, volume_24h := 0,
          resolution_time := none }
        ((StateStore.upsert (empty_store "p") "a" (1/2) 0).get "a")
        ({ filters :=
            { probability := { enabled := true, min := 7/10, max := 9/10 }
              time_to_resolution := { enabled := false } } } : BotConfig).alerts.new_market = none := by
      cases hs : (StateStore.upsert (empty_store "p") "a" (1/2) 0).get "a" with
      | none =>
        rw [hs] at hsome1
        simp at hsome1
      | some stv => exact new_market_evaluate_some _ stv _
    rw [hnm]
    have hps : sent_nm_ids ((price_spike.evaluate
        { outcome_id := "a", market_id := "m", market_name := "M",
          market_url := "u", event_title := none, outcome_name := "Yes",
          price := 4/5, liquidity := 0, volume := 0, volume_24h := 0,
          resolution_time := none }
        ((StateStore.upsert (empty_store "p") "a" (1/2) 0).get "a")
        ({ filters :=
            { probability := { enabled := true, min := 7/10, max := 9/10 }
              time_to_resolution := { enabled := false } } } : BotConfig).alerts.price_spike 60).map
          AlertMsg.price_spike).toList = [] := by
      cases price_spike.evaluate
        { outcome_id := "a", market_id := "m", market_name := "M",
          market_url := "u", event_title := none, outcome_name := "Yes",
          price := 4/5, liquidity := 0, volume := 0, volume_24h := 0,
          resolution_time := none }
        ((StateStore.upsert (empty_store "p") "a" (1/2) 0).get "a")
        ({ filters :=
            { probability := { enabled := true, min := 7/10, max := 9/10 }
              time_to_resolution := { enabled := false } } } : BotConfig).alerts.price_spike 60 <;> rfl
    have hre : sent_nm_ids ((range_entry.evaluate
        { outcome_id := "a", market_id := "m", market_name := "M",
          market_url := "u", event_title := none, outcome_name := "Yes",
          price := 4/5, liquidity := 0, volume := 0, volume_24h := 0,
          resolution_time := none }
        ((StateStore.upsert (empty_store "p") "a" (1/2) 0).get "a")
        ({ filters :=
            { probability := { enabled := true, min := 7/10, max := 9/10 }
              time_to_resolution := { enabled := false } } } : BotConfig).alerts.range_entry
        ({ filters :=
            { probability := { enabled := true, min := 7/10, max := 9/10 }
              time_to_resolution := { enabled := false } } } : BotConfig).filters.probability).map
          AlertMsg.range_entry).toList = [] := by
      cases range_entry.evaluate
        { outcome_id := "a", market_id := "m", market_name := "M",
          market_url := "u", event_title := none, outcome_name := "Yes",
          price := 4/5, liquidity := 0, volume := 0, volume_24h := 0,
          resolution_time := none }
        ((StateStore.upsert (empty_store "p") "a" (1/2) 0).get "a")
        ({ filters :=
            { probability := { enabled := true, min := 7/10, max := 9/10 }
              time_to_resolution := { enabled := false } } } : BotConfig).alerts.range_entry
        ({ filters :=
            { probability := { enabled := true, min := 7/10, max := 9/10 }
              time_to_resolution := { enabled := false } } } : BotConfig).filters.probability <;> rfl
    rw [hps, hre]
    rfl
  have hg0 : groups_ids ([] : List (String × List OutcomeSnapshot)) = [] := rfl
  rw [hg0, List.nil_append, List.nil_append, hbm]

/-- Witness for `new_market_once_spec`: a fresh outcome at price `0.80`
passing the `[0.70, 0.90]` probability filter fires a new-market alert on
its first observation. -/
theorem new_market_once_spec_witness :
    "a" ∈ new_market_fired (run_once
      { filters :=
          { probability := { enabled := true, min := 7/10, max := 9/10 }
            time_to_resolution := { enabled := false } } } 0
      [{ outcome_id := "a", market_id := "m", market_name := "M",
         market_url := "u", event_title := none, outcome_name := "Yes",
         price := 4/5, liquidity := 0, volume := 0, volume_24h := 0,
         resolution_time := none }] (empty_store "p")) :=
  (new_market_once_spec
    { filters :=
        { probability := { enabled := true, min := 7/10, max := 9/10 }
          time_to_resolution := { enabled := false } } } 0 "a"
    [{ outcome_id := "a", market_id := "m", market_name := "M",
       market_url := "u", event_title := none, outcome_name := "Yes",
       price := 4/5, liquidity := 0, volume := 0, volume_24h := 0,
       resolution_time := none }] (empty_store "p") rfl).1
    (by
      intro o ho hid
      simp only [List.mem_singleton] at ho
      subst ho
      unfold passes_filters probability.passes time_to_resolution.passes
        liquidity.passes volume_filter.passes probability.normalize_bounds
      norm_num)
    ⟨{ outcome_id := "a", market_id := "m", market_name := "M",
       market_url := "u", event_title := none, outcome_name := "Yes",
       price := 4/5, liquidity := 0, volume := 0, volume_24h := 0,
       resolution_time := none },
      List.mem_singleton_self _, rfl⟩
    rfl
